import Mathlib

/-!
Shallow embedding of `scripts/plot_rag_retriever.py` (the plot-retrieval core of the
repository) and proofs about it.

Modelling conventions, used consistently below:
* Python strings are `String`, manipulated through their `List Char` data so that all
  definitions are executable and kernel-reducible.  `len` is the number of code points,
  which matches Python `len` on `str`.
* File mtimes are modelled as `Int`.  The source stores them as floats and only ever
  compares them for equality (`float(cached.get("mtime", -1)) == mtime`), so any type
  with decidable equality and an injective `toString` rendering is faithful for the
  properties proved here.
* `hashlib.sha1(x).hexdigest()` is modelled by an explicit function parameter
  `H : String → String`: the digest is a deterministic function of its input string, and
  every theorem below holds for an arbitrary `H` (witnesses instantiate `H := id`).
  Equal hash inputs giving equal digests is the only hash property the proofs use.
* Python float score arithmetic is modelled over `ℚ`; the constants 1.5, 1.8, 0.6, 0.3,
  0.2 become the exact rationals.  The claims proved about scores (non-negativity,
  range of the recency term) are insensitive to this change of carrier.
* `dict` objects with insertion order are association lists (`List (key × value)`) with
  `dictGet` / `dictSet` mirroring `d[k]` lookup and assignment.
* Python `set` literals iterated in `for` loops have unspecified order; the fixed
  vocabularies below list them in the order written in the source.  No claim proved
  here depends on that order.
* The filesystem visible to `build_index` / `main` is a record (`BuildFs`, `QueryFs`):
  chapter files, the character-tracker file, the prior `story_index.json` (absent,
  corrupt, or parsed), the sidecar-existence predicate and the sidecar directory
  listing.  A corrupt JSON file is `some (Except.error ())`.
* The markdown rendering step `write_context_md` and the `--emit-json` output are not
  modelled; they only pretty-print the result that `main` has already computed, and no
  claim concerns them.
-/

namespace PlotRag

/-- Unicode whitespace as recognised by Python's `str.strip` and `re` `\s`
(ASCII whitespace, NEL, NBSP, the general Unicode space block, and the
information separators). -/
def isPySpace (c : Char) : Bool :=
  c == ' ' || c == '\t' || c == '\n' || c == '\r' || c == '\x0b' || c == '\x0c' ||
  c == '\x1c' || c == '\x1d' || c == '\x1e' || c == '\x1f' ||
  c.toNat == 0x85 || c.toNat == 0xa0 || c.toNat == 0x1680 ||
  (0x2000 ≤ c.toNat && c.toNat ≤ 0x200a) ||
  c.toNat == 0x2028 || c.toNat == 0x2029 || c.toNat == 0x202f ||
  c.toNat == 0x205f || c.toNat == 0x3000

/-- CJK ideograph range `[一-鿿]` used throughout the source's regexes. -/
def cjk (c : Char) : Bool := 0x4e00 ≤ c.toNat && c.toNat ≤ 0x9fff

def pyStripList (cs : List Char) : List Char :=
  ((cs.dropWhile isPySpace).reverse.dropWhile isPySpace).reverse

/-- Python `str.strip()`. -/
def pyStrip (s : String) : String := String.mk (pyStripList s.data)

/-- Python `str.rstrip()`. -/
def pyRstrip (s : String) : String := String.mk ((s.data.reverse.dropWhile isPySpace).reverse)

/-- Python `str.strip(c)` for a single strip character `c`. -/
def pyStripChar (s : String) (c : Char) : String :=
  String.mk (((s.data.dropWhile (· == c)).reverse.dropWhile (· == c)).reverse)

/-- Python slicing `s[:n]` (by code points). -/
def pyTakeChars (s : String) (n : Nat) : String := String.mk (s.data.take n)

/-- One step of `re.sub(r"\s+", " ", ·)`: every maximal whitespace run becomes one space. -/
def collapseWs (l : List Char) : List Char :=
  l.foldr (fun c acc =>
    if isPySpace c then
      ' ' :: (if acc.headD 'x' == ' ' then acc.tail else acc)
    else c :: acc) []

/-- `normalize_text` (source line 46): `re.sub(r"\s+", " ", text).strip()`. -/
def normalize_text (s : String) : String := pyStrip (String.mk (collapseWs s.data))

/-- `normalize_query` (source line 72). -/
def normalize_query (q : String) : String := normalize_text q

def isPrefixOfL : List Char → List Char → Bool
  | [], _ => true
  | _ :: _, [] => false
  | a :: as, b :: bs => a == b && isPrefixOfL as bs

def isInfixOfL (n : List Char) : List Char → Bool
  | [] => n.isEmpty
  | c :: t => isPrefixOfL n (c :: t) || isInfixOfL n t

/-- Python `needle in hay` on strings (substring containment). -/
def occursIn (needle hay : String) : Bool := isInfixOfL needle.data hay.data

def startsWithStr (p s : String) : Bool := isPrefixOfL p.data s.data

def splitOnCharAux (sep : Char) : List Char → List Char → List (List Char)
  | [], cur => [cur.reverse]
  | c :: cs, cur =>
    if c == sep then cur.reverse :: splitOnCharAux sep cs []
    else splitOnCharAux sep cs (c :: cur)

/-- Python `s.split(c)` for a one-character separator. -/
def splitOnChar (sep : Char) (s : String) : List String :=
  (splitOnCharAux sep s.data []).map String.mk

/-- Python `str.splitlines()` restricted to `\n` line endings (the only line
ending produced and consumed by this program's own files). -/
def pySplitlines (s : String) : List String :=
  if s.data.isEmpty then []
  else if s.data.getLast? == some '\n' then (splitOnChar '\n' s).dropLast
  else splitOnChar '\n' s

/-- Python `sep.join(l)`. -/
def joinStr (sep : String) : List String → String
  | [] => ""
  | [x] => x
  | x :: y :: xs => x ++ sep ++ joinStr sep (y :: xs)

/-- Lexicographic code-point comparison, Python's `<` on `str`. -/
def lexLtL : List Char → List Char → Bool
  | [], [] => false
  | [], _ :: _ => true
  | _ :: _, [] => false
  | a :: as, b :: bs =>
    if a.toNat < b.toNat then true
    else if b.toNat < a.toNat then false
    else lexLtL as bs

/-- Python's `<=` on `str`. -/
def strLeB (a b : String) : Bool := !lexLtL b.data a.data

/-- Stable insertion used by `sortLe`: `x` goes after every element `y` with `le y x`. -/
def insertLe {α : Type} (le : α → α → Bool) (x : α) : List α → List α
  | [] => [x]
  | y :: ys => if le y x then y :: insertLe le x ys else x :: y :: ys

/-- Stable sort (model of Python's stable `sorted` / `list.sort`): elements are
inserted left to right, equal elements keep their original relative order. -/
def sortLe {α : Type} (le : α → α → Bool) (l : List α) : List α :=
  l.foldl (fun acc x => insertLe le x acc) []

/-- Distinct elements in first-seen order; the iteration order of a Python
`collections.Counter` / dict built by insertion. -/
def firstSeen (l : List String) : List String :=
  l.foldl (fun acc x => if acc.contains x then acc else acc ++ [x]) []

/-- `len(set(a) & set(b))`: number of distinct elements of `a` also in `b`. -/
def setInterLen (a b : List String) : Nat :=
  ((firstSeen a).filter (fun x => b.contains x)).length

/-- `Counter(l).most_common(n)` keys: distinct elements sorted by descending count,
ties broken by first-seen order (Python's `most_common` is stable). -/
def mostCommon (l : List String) (n : Nat) : List String :=
  (sortLe (fun a b => decide (l.count b ≤ l.count a)) (firstSeen l)).take n

/-! ### Fixed vocabularies (source lines 17-30) -/

def STOPWORDS : List String :=
  ["我们", "你们", "他们", "她们", "它们", "这个", "那个", "一种", "已经", "因为", "所以", "如果",
   "但是", "然后", "自己", "不是", "不会", "就是", "还是", "一个", "一些", "可以", "时候", "什么",
   "怎么", "这样", "那样", "起来", "进去", "出来", "一下", "一样", "以及", "并且", "或者"]

def TRIGGER_KEYWORDS : List String :=
  ["冲突", "反转", "伏笔", "回收", "真相", "背叛", "联盟", "新角色", "时间线", "回忆",
   "穿越", "死亡", "复活", "势力", "升级", "突破", "决战", "危机", "转折", "悬念"]

def LIGHT_SCENE_KEYWORDS : List String :=
  ["日常", "过渡", "环境描写", "吃饭", "赶路", "休整", "闲聊", "铺垫"]

/-! ### Lexical extractor (`tokenize`, source lines 50-64) -/

def isAsciiLetterB (c : Char) : Bool :=
  (0x41 ≤ c.toNat && c.toNat ≤ 0x5a) || (0x61 ≤ c.toNat && c.toNat ≤ 0x7a)

def runsByAux (p : Char → Bool) : Nat → List Char → List (List Char)
  | 0, _ => []
  | _ + 1, [] => []
  | fuel + 1, c :: cs =>
    if p c then ((c :: cs).takeWhile p) :: runsByAux p fuel ((c :: cs).dropWhile p)
    else runsByAux p fuel cs

/-- Maximal runs of characters satisfying `p` (model of `re.findall` on a
character-class-plus pattern). -/
def runsBy (p : Char → Bool) (l : List Char) : List (List Char) := runsByAux p l.length l

/-- All length-`k` slices of a run, in order (`seq[i : i + k]`). -/
def slicesK (seq : List Char) (k : Nat) : List String :=
  (List.range (seq.length + 1 - k)).map (fun i => String.mk ((seq.drop i).take k))

/-- `tokenize` (source lines 50-64): CJK 2/3/4-grams of each maximal CJK run of
length ≥ 2, stopwords excluded, followed by lowercased ASCII words of length ≥ 3. -/
def tokenize (text : String) : List String :=
  let cjkTokens :=
    ((runsBy cjk text.data).filter (fun r => 2 ≤ r.length)).flatMap (fun seq =>
      ([2, 3, 4].flatMap (fun k =>
        (slicesK seq k).filter (fun t => !STOPWORDS.contains t))))
  let asciiTokens :=
    ((runsBy isAsciiLetterB text.data).filter (fun r => 3 ≤ r.length)).map
      (fun r => String.mk (r.map Char.toLower))
  cjkTokens ++ asciiTokens

/-- `parse_chapter_no` (source lines 67-69): leftmost `第(\d+)章` match, else 0. -/
def parse_chapter_no_aux : Nat → List Char → Nat
  | 0, _ => 0
  | _ + 1, [] => 0
  | fuel + 1, c :: cs =>
    if c == '第' then
      let digits := cs.takeWhile Char.isDigit
      let rest := cs.dropWhile Char.isDigit
      if !digits.isEmpty && rest.headD 'x' == '章' then
        digits.foldl (fun n d => n * 10 + (d.toNat - 0x30)) 0
      else parse_chapter_no_aux fuel cs
    else parse_chapter_no_aux fuel cs

def parse_chapter_no (filename : String) : Nat :=
  parse_chapter_no_aux filename.data.length filename.data

/-- `slugify` (source lines 33-35): collapse every run of characters outside
`[0-9A-Za-z一-鿿_-]` to a single `-`, strip `-`, default `"chapter"`. -/
def isSlugChar (c : Char) : Bool :=
  cjk c || isAsciiLetterB c || (0x30 ≤ c.toNat && c.toNat ≤ 0x39) || c == '_' || c == '-'

def slugify (text : String) : String :=
  let collapsed := text.data.foldr (fun c acc =>
    if isSlugChar c then c :: acc
    else '-' :: (if acc.headD 'x' == '-' then acc.tail else acc)) []
  let s := pyStripChar (String.mk collapsed) '-'
  if s.data.isEmpty then "chapter" else s

/-- Python `Path.stem`: filename without its last extension. -/
def pathStem (n : String) : String :=
  let rev := n.data.reverse
  let afterDot := rev.dropWhile (· != '.')
  match afterDot with
  | [] => n
  | _ :: base => if base.isEmpty then n else String.mk base.reverse

/-! ### Entity registry loader (`load_character_names`, source lines 106-135) -/

def isNameChar (c : Char) : Bool :=
  cjk c || isAsciiLetterB c || (0x30 ≤ c.toNat && c.toNat ≤ 0x39) ||
  c == '_' || c.toNat == 0xb7

/-- `re.fullmatch(r"[一-鿿A-Za-z0-9_·]{2,20}", s)`. -/
def isNameToken (s : String) : Bool :=
  2 ≤ s.data.length && s.data.length ≤ 20 && s.data.all isNameChar

/-- One attempt of the `(?:姓名|角色)\s*[:：]\s*([一-鿿A-Za-z0-9_·]{2,20})`
pattern at the current position; returns the captured group and the rest of the
input after the whole match. -/
def matchInlineNameAt (cs : List Char) : Option (String × List Char) :=
  let afterKey :=
    if isPrefixOfL "姓名".data cs then some (cs.drop 2)
    else if isPrefixOfL "角色".data cs then some (cs.drop 2)
    else none
  match afterKey with
  | none => none
  | some rest =>
    let rest := rest.dropWhile isPySpace
    match rest with
    | [] => none
    | c :: rest2 =>
      if c == ':' || c == '：' then
        let rest3 := rest2.dropWhile isPySpace
        let nm := (rest3.takeWhile isNameChar).take 20
        if 2 ≤ nm.length then some (String.mk nm, rest3.drop nm.length) else none
      else none

/-- `re.finditer` scan for the inline-name pattern (leftmost, non-overlapping). -/
def scanInlineNames : Nat → List Char → List String
  | 0, _ => []
  | _ + 1, [] => []
  | fuel + 1, c :: cs =>
    match matchInlineNameAt (c :: cs) with
    | some (nm, rest) => nm :: scanInlineNames fuel rest
    | none => scanInlineNames fuel cs

def trackerHeaderNoise : List String := ["人物", "角色", "姓名", "---", ""]

def trackerBadNames : List String := ["当前状态", "关系", "位置", "目标", "变化", "章节"]

/-- `load_character_names` (source lines 106-135).  `none` models a missing
`character_tracker.md`; the result is the sorted, de-duplicated name set. -/
def load_character_names (tracker : Option String) : List String :=
  match tracker with
  | none => []
  | some txt =>
    let tableNames := (pySplitlines txt).foldl (fun acc line =>
      let line := pyStrip line
      if !startsWithStr "|" line then acc
      else
        let cells := (splitOnChar '|' (pyStripChar line '|')).map pyStrip
        let candidate := cells.headD ""
        if trackerHeaderNoise.contains candidate then acc
        else if isNameToken candidate then acc ++ [candidate] else acc) []
    let inline := scanInlineNames txt.data.length txt.data
    let all := firstSeen (tableNames ++ inline)
    sortLe strLeB (all.filter (fun n => !trackerBadNames.contains n))

/-! ### Trigger classifier (`analyze_query_trigger`, source lines 76-103) -/

structure TriggerResult where
  should_trigger : Bool
  entities : List String
  keyword_hits : List String
  light_hits : List String
  query_length : Nat
  reason : List String
deriving Repr, DecidableEq

/-- `analyze_query_trigger` (source lines 76-103). -/
def analyze_query_trigger (query : String) (names : List String) : TriggerResult :=
  let q := normalize_query query
  let entities := names.filter (fun n => occursIn n q)
  let keyword_hits := sortLe strLeB (TRIGGER_KEYWORDS.filter (fun k => occursIn k q))
  let light_hits := sortLe strLeB (LIGHT_SCENE_KEYWORDS.filter (fun k => occursIn k q))
  let long_query : Bool := decide (18 ≤ q.data.length)
  let should := !entities.isEmpty || !keyword_hits.isEmpty ||
    (long_query && light_hits.isEmpty)
  let reason :=
    (if !entities.isEmpty then ["命中角色:" ++ joinStr "," entities] else []) ++
    (if !keyword_hits.isEmpty then ["命中剧情关键词:" ++ joinStr "," (keyword_hits.take 4)] else []) ++
    (if long_query && light_hits.isEmpty then ["查询描述较长，判定为复杂剧情"] else []) ++
    (if !light_hits.isEmpty && entities.isEmpty && keyword_hits.isEmpty then
       ["仅命中轻场景关键词:" ++ joinStr "," light_hits] else [])
  let reason := if reason.isEmpty then ["未命中角色/剧情关键词，判定为可跳过检索"] else reason
  { should_trigger := should, entities := entities, keyword_hits := keyword_hits,
    light_hits := light_hits, query_length := q.data.length, reason := reason }

/-! ### Relation snippets (`extract_relation_snippets`, source lines 138-173) -/

/-- Deterministic decision procedure for
`re.fullmatch(r"\s*:?-+:?\s*", s)`.  The character classes involved (whitespace,
`:`, `-`) are pairwise disjoint, so the greedy scan below is equivalent to the
backtracking regex. -/
def dashSegOk (s : String) : Bool :=
  let cs := s.data.dropWhile isPySpace
  let cs := if cs.headD 'x' == ':' then cs.tail else cs
  let dashes := cs.takeWhile (· == '-')
  let cs := cs.dropWhile (· == '-')
  let cs := if cs.headD 'x' == ':' then cs.tail else cs
  !dashes.isEmpty && (cs.dropWhile isPySpace).isEmpty

/-- `re.fullmatch(r"\|\s*:?-+:?\s*(\|\s*:?-+:?\s*)+\|?", s)` — a markdown table
separator line.  Between any two `|` the inner segment must match `\s*:?-+:?\s*`
entirely (matching always resumes at a `|` or at the end), so the regex is
equivalent to: the line starts with `|`, splits on `|` into at least two
segments, every segment matches the dash pattern, with one optional trailing
`|`. -/
def isTableSepLine (s : String) : Bool :=
  match s.data with
  | '|' :: _ =>
    let parts := splitOnChar '|' s
    let core := parts.tail
    let segs := if core.getLast? == some "" then core.dropLast else core
    2 ≤ segs.length && segs.all dashSegOk
  | _ => false

/-- `"\n".join(lines[start:stop]).strip()` — the text block of one window. -/
def windowBlock (lines : List String) (start stop : Nat) : String :=
  pyStrip (joinStr "\n" ((lines.drop start).take (stop - start)))

/-- The deduplication key of a block: its stripped lines, markdown table
separator lines and blank lines removed, joined by `" || "` (source lines
158-165). -/
def normKeyOf (block : String) : String :=
  joinStr " || "
    (((pySplitlines block).map pyStrip).filter (fun s => !isTableSepLine s && !s.data.isEmpty))

structure SnipState where
  hits : List String
  used : List (Nat × Nat)
  seen : List String
  lastEnd : Int
deriving Repr, DecidableEq

/-- Source lines 155-170, after the window has passed the `used` check: record the
window as used, and append its block (and the block's dedup key) unless the block
is empty, its key is empty, or the key was already seen. -/
def snipTry (lines : List String) (st : SnipState) (start stop : Nat) : SnipState :=
  if !(windowBlock lines start stop).data.isEmpty &&
      !(normKeyOf (windowBlock lines start stop)).data.isEmpty &&
      !st.seen.contains (normKeyOf (windowBlock lines start stop)) then
    { hits := st.hits ++ [windowBlock lines start stop],
      used := st.used ++ [(start, stop)],
      seen := st.seen ++ [normKeyOf (windowBlock lines start stop)],
      lastEnd := (stop : Int) - 1 }
  else { st with used := st.used ++ [(start, stop)] }

/-- The loop body of `extract_relation_snippets` (source lines 146-172), iterating
over `enumerate(lines)`. -/
def snipGo (lines : List String) (terms : List String) (window maxHits : Nat) :
    List (Nat × String) → SnipState → List String
  | [], st => st.hits
  | (i, line) :: rest, st =>
    if !terms.any (fun t => occursIn t line) then snipGo lines terms window maxHits rest st
    else if (i : Int) ≤ st.lastEnd then snipGo lines terms window maxHits rest st
    else
      if st.used.contains (i - window, min lines.length (i + window + 1)) then
        snipGo lines terms window maxHits rest st
      else
        if maxHits ≤ (snipTry lines st (i - window)
            (min lines.length (i + window + 1))).hits.length then
          (snipTry lines st (i - window) (min lines.length (i + window + 1))).hits
        else
          snipGo lines terms window maxHits rest
            (snipTry lines st (i - window) (min lines.length (i + window + 1)))

/-- `extract_relation_snippets` (source lines 138-173).  `file` is the content of
the registry document (`none` when the file does not exist); the source defaults
`window = 2`, `max_hits = 8`. -/
def extract_relation_snippets (file : Option String) (terms : List String)
    (window maxHits : Nat) : List String :=
  match file with
  | none => []
  | some txt =>
    if terms.isEmpty then []
    else
      let lines := pySplitlines txt
      snipGo lines terms window maxHits lines.enum
        { hits := [], used := [], seen := [], lastEnd := -1 }

/-! ### Location candidates (`extract_location_candidates`, source lines 201-211) -/

def locPreps : List String := ["在", "到", "从", "回到"]

def locSuffixes1 : List String :=
  ["站台", "车站", "港区", "港", "城", "城北", "街", "巷", "村", "楼", "馆", "厂", "桥", "学校", "医院"]

def locSuffixes2 : List String :=
  ["站台", "车站", "港区", "港", "城", "街", "巷", "村", "楼", "馆", "厂", "桥", "学校", "医院"]

/-- Try every suffix alternative, in the order written in the regex. -/
def matchSuffixAt (sufs : List String) (cs : List Char) : Option (List Char × List Char) :=
  sufs.findSome? (fun suf =>
    if isPrefixOfL suf.data cs then some (suf.data, cs.drop suf.data.length) else none)

/-- `[一-鿿]{lo,hi}(?:suffixes)` with the regex's greedy backtracking: the CJK
body takes as many characters as possible (from `hi` down to `lo`) such that a
suffix alternative matches right after it.  Returns the captured group
(body ++ suffix) and the rest of the input. -/
def tryLocBody (lo hi : Nat) (sufs : List String) (cs : List Char) :
    Option (List Char × List Char) :=
  let avail := min hi (cs.takeWhile cjk).length
  (((List.range (avail + 1)).filter (fun k => lo ≤ k)).reverse).findSome? (fun k =>
    match matchSuffixAt sufs (cs.drop k) with
    | some (suf, rest) => some (cs.take k ++ suf, rest)
    | none => none)

/-- Pattern 1 at the current position:
`(?:在|到|从|回到)([一-鿿]{2,12}(?:站台|车站|...))`; alternatives tried in regex
order, with backtracking across the preposition alternatives. -/
def matchLoc1At (cs : List Char) : Option (List Char × List Char) :=
  locPreps.findSome? (fun p =>
    if isPrefixOfL p.data cs then tryLocBody 2 12 locSuffixes1 (cs.drop p.data.length)
    else none)

/-- Pattern 2 at the current position: `([一-鿿]{2,10}(?:站台|车站|...))`. -/
def matchLoc2At (cs : List Char) : Option (List Char × List Char) :=
  tryLocBody 2 10 locSuffixes2 cs

/-- `re.finditer` scan: leftmost matches, non-overlapping, capture group 1. -/
def scanLoc (m : List Char → Option (List Char × List Char)) :
    Nat → List Char → List String
  | 0, _ => []
  | _ + 1, [] => []
  | fuel + 1, c :: cs =>
    match m (c :: cs) with
    | some (grp, rest) => String.mk grp :: scanLoc m fuel rest
    | none => scanLoc m fuel cs

/-- `extract_location_candidates` (source lines 201-211). -/
def extract_location_candidates (text : String) (top_n : Nat) : List String :=
  let hits := scanLoc matchLoc1At text.data.length text.data ++
              scanLoc matchLoc2At text.data.length text.data
  if hits.isEmpty then [] else mostCommon hits top_n

/-! ### Conflict level (`infer_conflict_level`, source lines 214-224) -/

def conflictHigh : List String := ["决战", "追杀", "爆炸", "死亡", "复活", "背叛", "崩溃", "危机", "反转"]

def conflictMedium : List String := ["冲突", "争执", "对峙", "潜入", "调查", "追踪", "怀疑", "联盟"]

def conflictLow : List String := ["日常", "休整", "过渡", "闲聊", "铺垫"]

def infer_conflict_level (text : String) : String :=
  if conflictHigh.any (fun k => occursIn k text) then "high"
  else if conflictMedium.any (fun k => occursIn k text) then "medium"
  else if conflictLow.any (fun k => occursIn k text) then "low"
  else "unknown"

/-! ### Foreshadowing references (source lines 239-245) -/

def foreshadowTriggers : List String := ["伏笔", "线索", "坐标", "编号", "暗号", "名单"]

def isForeshadowStop (c : Char) : Bool := c == '。' || c == '！' || c == '？' || c == '\n'

/-- `(伏笔|线索|坐标|编号|暗号|名单)[^。！？\n]{0,32}` at the current position (the
trigger words have pairwise distinct first characters, so alternation order is
immaterial; `{0,32}` is greedy). -/
def matchForeshadowAt (cs : List Char) : Option (List Char × List Char) :=
  match foreshadowTriggers.findSome? (fun t =>
      if isPrefixOfL t.data cs then some t.data else none) with
  | none => none
  | some trig =>
    let rest := cs.drop trig.length
    let body := (rest.takeWhile (fun c => !isForeshadowStop c)).take 32
    some (trig ++ body, rest.drop body.length)

/-- The `finditer` loop of source lines 239-245: normalize each matched fragment,
deduplicate, stop at 6. -/
def scanForeshadow : Nat → List Char → List String → List String
  | 0, _, acc => acc
  | _ + 1, [], acc => acc
  | fuel + 1, c :: cs, acc =>
    match matchForeshadowAt (c :: cs) with
    | some (frag, rest) =>
      let fragN := normalize_text (String.mk frag)
      let acc2 := if !fragN.data.isEmpty && !acc.contains fragN then acc ++ [fragN] else acc
      if 6 ≤ acc2.length then acc2 else scanForeshadow fuel rest acc2
    | none => scanForeshadow fuel cs acc

def foreshadow_refs_of (text : String) : List String :=
  scanForeshadow text.data.length text.data []

/-! ### Chapter metadata builder (`build_chapter_meta`, source lines 227-267) -/

structure Chapter where
  name : String
  mtime : Int
  text : String
deriving Repr, DecidableEq

structure ChapterMeta where
  chapter_file : String
  chapter_path : String
  chapter_no : Nat
  mtime : Int
  summary : String
  entities : List String
  events : List String
  locations : List String
  foreshadow_refs : List String
  keywords : List String
  conflict_level : String
  meta_file : String
deriving Repr, DecidableEq

/-- `build_chapter_meta` (source lines 227-267).  Paths are modelled relative to
the retrieval directory; `chapter_path` is the chapter's file name.  The sidecar
JSON write is the caller-visible effect recorded by `BuildStep.wroteSidecar`
below. -/
def build_chapter_meta (ch : Chapter) (chapter_no : Nat) (names : List String) : ChapterMeta :=
  let text := ch.text
  let entities := sortLe strLeB (names.filter (fun n => occursIn n text))
  let tokens := tokenize text
  let top_tokens := mostCommon tokens 18
  let events := (TRIGGER_KEYWORDS.filter (fun k => occursIn k text)).take 10
  let locations := extract_location_candidates text 6
  let meta_path := "chapter_meta/" ++ slugify (pathStem ch.name) ++ ".meta.json"
  let flat := normalize_text text
  { chapter_file := ch.name, chapter_path := ch.name, chapter_no := chapter_no,
    mtime := ch.mtime, summary := pyTakeChars flat 220, entities := entities,
    events := events, locations := locations,
    foreshadow_refs := foreshadow_refs_of text, keywords := top_tokens,
    conflict_level := infer_conflict_level text, meta_file := meta_path }

/-! ### Documents, snapshots, signatures and cache keys
(`index_signature` lines 311-318, `make_cache_key` lines 342-344) -/

/-- One entry of `story_index.json`'s `docs` array; field defaults mirror the
`dict.get` defaults used when the source reads an entry. -/
structure Doc where
  chapter_file : String := ""
  chapter_path : String := ""
  chapter_no : Nat := 0
  mtime : Int := -1
  summary : String := ""
  entities : List String := []
  keywords : List String := []
  meta_file : String := ""
  events : List String := []
  locations : List String := []
  foreshadow_refs : List String := []
  conflict_level : String := "unknown"
deriving Repr, DecidableEq

/-- The persisted index snapshot (`story_index.json`). -/
structure StoredIndex where
  generated_at : String := ""
  chapter_count : Nat := 0
  reused_docs : Nat := 0
  rebuilt_docs : Nat := 0
  cleaned_meta_files : Nat := 0
  character_sig : String := ""
  docs : List Doc := []
deriving Repr, DecidableEq

/-- The string hashed by `index_signature` (source lines 313-316):
`"|".join(f"{chapter_file}:{mtime}")` over the docs. -/
def index_signature_raw (docs : List Doc) : String :=
  joinStr "|" (docs.map (fun d => d.chapter_file ++ ":" ++ toString d.mtime))

/-- `index_signature` (source lines 311-318): `f"{len(docs)}-{sha1(raw)[:16]}"`,
with the sha1 hexdigest modelled by `H`. -/
def index_signature (H : String → String) (idx : StoredIndex) : String :=
  toString idx.docs.length ++ "-" ++ pyTakeChars (H (index_signature_raw idx.docs)) 16

/-- The preimage string hashed by `make_cache_key` (source line 343). -/
def make_cache_key_raw (query : String) (top_k per_chapter passage_max_chars : Nat)
    (idx_sig : String) : String :=
  normalize_query query ++ "|" ++ toString top_k ++ "|" ++ toString per_chapter ++ "|" ++
    toString passage_max_chars ++ "|" ++ idx_sig

/-- `make_cache_key` (source lines 342-344), sha1 hexdigest modelled by `H`. -/
def make_cache_key (H : String → String) (query : String)
    (top_k per_chapter passage_max_chars : Nat) (idx_sig : String) : String :=
  H (make_cache_key_raw query top_k per_chapter passage_max_chars idx_sig)

/-! ### Insertion-ordered dictionaries (Python `dict`) -/

def dictGet {α : Type} : List (String × α) → String → Option α
  | [], _ => none
  | e :: es, k => if e.1 == k then some e.2 else dictGet es k

/-- `d[k] = v`: update in place if the key exists, else append.  (Dictionaries
are only ever built through `dictSet` from `[]`, so keys are unique and
updating the first occurrence is the Python `dict` semantics.) -/
def dictSet {α : Type} : List (String × α) → String → α → List (String × α)
  | [], k, v => [(k, v)]
  | e :: es, k, v => if e.1 == k then (k, v) :: es else e :: dictSet es k v

/-! ### Incremental index store (`build_index`, source lines 364-471) -/

/-- The filesystem state `build_index` can observe.  `indexFile` is the prior
`story_index.json`: `none` when absent, `some (Except.error ())` when present
but corrupt/unparseable, `some (Except.ok _)` when readable.  `metaFiles` lists
the `chapter_meta/*.meta.json` files present, and `sidecarExists` is
`Path(...).exists()` for sidecar paths. -/
structure BuildFs where
  chapters : List Chapter
  tracker : Option String
  indexFile : Option (Except Unit StoredIndex)
  metaFiles : List String
  sidecarExists : String → Bool

/-- Chapter-file sort key of source line 370: `(parse_chapter_no(p.name), p.name)`. -/
def chapLe (a b : Chapter) : Bool :=
  decide (parse_chapter_no a.name < parse_chapter_no b.name) ||
    (parse_chapter_no a.name == parse_chapter_no b.name && strLeB a.name b.name)

/-- Doc sort key of source line 449: `(chapter_no, chapter_file)`. -/
def docLe (a b : Doc) : Bool :=
  decide (a.chapter_no < b.chapter_no) ||
    (a.chapter_no == b.chapter_no && strLeB a.chapter_file b.chapter_file)

/-- The `existing_docs` dict of source lines 379-382: key each prior doc by its
`chapter_file`, skipping empty names (later duplicates overwrite). -/
def mkExisting (docs : List Doc) : List (String × Doc) :=
  docs.foldl (fun m d => if d.chapter_file == "" then m else dictSet m d.chapter_file d) []

/-- Source lines 373-384: read the prior snapshot, returning
`(old_character_sig, existing_docs)`; a missing or corrupt file degrades to
`("", {})`. -/
def loadExisting : Option (Except Unit StoredIndex) → String × List (String × Doc)
  | some (Except.ok old) => (old.character_sig, mkExisting old.docs)
  | _ => ("", [])

def joinBar (names : List String) : String := joinStr "|" names

/-- The snapshot entry built by the full-rebuild branch (source lines 416-445). -/
def rebuildDoc (names : List String) (keyword_top_n : Nat) (ch : Chapter) : Doc :=
  let text := ch.text
  let flat := normalize_text text
  let summary := pyTakeChars flat 260
  let tokens := tokenize text
  let top_keywords := mostCommon tokens keyword_top_n
  let hit_entities := names.filter (fun n => occursIn n text)
  let meta := build_chapter_meta ch (parse_chapter_no ch.name) names
  { chapter_file := ch.name, chapter_path := ch.name,
    chapter_no := parse_chapter_no ch.name, mtime := ch.mtime, summary := summary,
    entities := hit_entities, keywords := top_keywords, meta_file := meta.meta_file,
    events := meta.events, locations := meta.locations,
    foreshadow_refs := meta.foreshadow_refs, conflict_level := meta.conflict_level }

/-- `doc.update({...})` of source lines 408-414: refresh the metadata-derived
fields of a reused entry from a regenerated sidecar. -/
def updateFromMeta (d : Doc) (m : ChapterMeta) : Doc :=
  { chapter_file := d.chapter_file, chapter_path := d.chapter_path,
    chapter_no := d.chapter_no, mtime := d.mtime, summary := d.summary,
    entities := d.entities, keywords := d.keywords, meta_file := m.meta_file,
    events := m.events, locations := m.locations, foreshadow_refs := m.foreshadow_refs,
    conflict_level := m.conflict_level }

/-- What one loop iteration of source lines 393-447 produced for one chapter. -/
structure BuildStep where
  doc : Doc
  reused : Bool
  wroteSidecar : Bool
deriving Repr, DecidableEq

/-- One iteration of the chapter loop (source lines 393-447). -/
def buildStep (names : List String) (keyword_top_n : Nat) (reuse_allowed : Bool)
    (existing : List (String × Doc)) (sidecarExists : String → Bool) (ch : Chapter) :
    BuildStep :=
  match dictGet existing ch.name with
  | some cached =>
    if reuse_allowed && cached.mtime == ch.mtime then
      if cached.meta_file == "" || !sidecarExists cached.meta_file then
        let meta := build_chapter_meta ch (parse_chapter_no ch.name) names
        { doc := updateFromMeta cached meta, reused := true, wroteSidecar := true }
      else { doc := cached, reused := true, wroteSidecar := false }
    else { doc := rebuildDoc names keyword_top_n ch, reused := false, wroteSidecar := true }
  | none => { doc := rebuildDoc names keyword_top_n ch, reused := false, wroteSidecar := true }

/-- `entity_map` construction (source lines 450-454): initialize every registry
name to `[]`, then for each doc append its file to every entity it mentions
(`setdefault(n, []).append(chapter_file)`). -/
def emapInit (names : List String) : List (String × List String) :=
  names.foldl (fun m n => if (dictGet m n).isSome then m else m ++ [(n, [])]) []

def emapAppend (m : List (String × List String)) (n file : String) :
    List (String × List String) :=
  match dictGet m n with
  | some l => dictSet m n (l ++ [file])
  | none => m ++ [(n, [file])]

def entityMapOf (names : List String) (docs : List Doc) : List (String × List String) :=
  docs.foldl (fun m d => d.entities.foldl (fun m2 n => emapAppend m2 n d.chapter_file) m)
    (emapInit names)

/-- `cleanup_stale_meta_files` (source lines 347-361): delete and count sidecar
files referenced by no current document. -/
def cleanup_stale_meta_files (metaFiles : List String) (docs : List Doc) : Nat :=
  (metaFiles.filter (fun p => !docs.any (fun d => d.meta_file != "" && d.meta_file == p))).length

structure BuildOut where
  index : StoredIndex
  entity_map : List (String × List String)
  steps : List BuildStep
deriving Repr, DecidableEq

/-- `build_index` (source lines 364-471).  `H` models the sha1 hexdigest, `now`
the `generated_at` timestamp.  The returned `BuildOut` holds the persisted
snapshot, the persisted entity→chapters map, and the per-chapter step trace. -/
def build_index (H : String → String) (now : String) (fs : BuildFs)
    (keyword_top_n : Nat) (incremental : Bool) : BuildOut :=
  let chapters := sortLe chapLe fs.chapters
  let names := load_character_names fs.tracker
  let prior := if incremental then loadExisting fs.indexFile else ("", [])
  let old_character_sig := prior.1
  let existing_docs := prior.2
  let character_sig := pyTakeChars (H (joinBar names)) 16
  let reuse_allowed :=
    if old_character_sig != "" then old_character_sig == character_sig else true
  let steps := chapters.map
    (buildStep names keyword_top_n reuse_allowed existing_docs fs.sidecarExists)
  let docs0 := steps.map (fun s => s.doc)
  let reused := (steps.filter (fun s => s.reused)).length
  let rebuilt := (steps.filter (fun s => !s.reused)).length
  let docs := sortLe docLe docs0
  let entity_map := entityMapOf names docs
  let cleaned := cleanup_stale_meta_files fs.metaFiles docs
  { index := { generated_at := now, chapter_count := docs.length, reused_docs := reused,
               rebuilt_docs := rebuilt, cleaned_meta_files := cleaned,
               character_sig := character_sig, docs := docs },
    entity_map := entity_map, steps := steps }

/-! ### Scoring (`score_passage` lines 270-278, `score_doc_coarse` lines 474-498,
`score_doc_fine` lines 501-539) -/

structure PassReason where
  token_overlap : Nat
  entity_overlap : Nat
deriving Repr, DecidableEq

/-- `score_passage` (source lines 270-278); floats over `ℚ`. -/
def score_passage (passage : String) (query_tokens query_entities : List String) :
    ℚ × PassReason :=
  let p_tokens := firstSeen (tokenize passage)
  let token_overlap := setInterLen query_tokens p_tokens
  let entity_overlap := (query_entities.filter (fun e => occursIn e passage)).length
  ((entity_overlap : ℚ) * 3 + (token_overlap : ℚ) * 1,
   { token_overlap := token_overlap, entity_overlap := entity_overlap })

structure CoarseReason where
  token_overlap : Nat
  entity_overlap : Nat
  event_overlap : Nat
  location_overlap : Nat
deriving Repr, DecidableEq

/-- `score_doc_coarse` (source lines 474-498); `1.5` is the exact rational 3/2. -/
def score_doc_coarse (doc : Doc) (query_token_set query_entities : List String)
    (query_text : String) : ℚ × CoarseReason :=
  let kw := firstSeen doc.keywords
  let ent := firstSeen doc.entities
  let evt := firstSeen doc.events
  let loc := firstSeen doc.locations
  let token_overlap := setInterLen query_token_set kw
  let entity_overlap := setInterLen query_entities ent
  let event_overlap := (evt.filter (fun e => e != "" && occursIn e query_text)).length
  let location_overlap := (loc.filter (fun l => l != "" && occursIn l query_text)).length
  ((entity_overlap : ℚ) * 4 + (event_overlap : ℚ) * 2 +
     (location_overlap : ℚ) * (3 / 2) + (token_overlap : ℚ) * 1,
   { token_overlap := token_overlap, entity_overlap := entity_overlap,
     event_overlap := event_overlap, location_overlap := location_overlap })

structure FineReason where
  token_overlap : Nat
  summary_overlap : Nat
  entity_overlap : Nat
  event_overlap : Nat
  recency : ℚ
  conflict_bonus : ℚ
deriving Repr, DecidableEq

/-- `chapter_no / max_no if max_no > 0 else 0.0` (source line 520). -/
def recencyOf (chapter_no max_no : Nat) : ℚ :=
  if 0 < max_no then (chapter_no : ℚ) / (max_no : ℚ) else 0

/-- `0.2 if conflict_level in {"high", "medium"} else 0.0` (source line 521). -/
def conflictBonusOf (level : String) : ℚ :=
  if level == "high" || level == "medium" then 1 / 5 else 0

/-- `score_doc_fine` (source lines 501-539); the float weights 1.8, 0.6, 0.3 are
the exact rationals 9/5, 3/5, 3/10. -/
def score_doc_fine (doc : Doc) (query_token_set query_entities : List String)
    (query_text : String) (max_no : Nat) : ℚ × FineReason :=
  let kw := firstSeen doc.keywords
  let ent := firstSeen doc.entities
  let evt := firstSeen doc.events
  let token_overlap := setInterLen query_token_set kw
  let summary_overlap := setInterLen query_token_set (tokenize doc.summary)
  let entity_overlap := setInterLen query_entities ent
  let event_overlap := (evt.filter (fun e => e != "" && occursIn e query_text)).length
  let recency := recencyOf doc.chapter_no max_no
  let conflict_bonus := conflictBonusOf doc.conflict_level
  ((entity_overlap : ℚ) * 3 + (event_overlap : ℚ) * (9 / 5) + (token_overlap : ℚ) * 1 +
     (summary_overlap : ℚ) * (3 / 5) + recency * (3 / 10) + conflict_bonus,
   { token_overlap := token_overlap, summary_overlap := summary_overlap,
     entity_overlap := entity_overlap, event_overlap := event_overlap,
     recency := recency, conflict_bonus := conflict_bonus })

/-! ### Passage selector (`split_passages` lines 176-198, `top_passages` lines 281-308) -/

/-- `re.split(r"(?<=[。！？!?])", para)`: cut after every sentence terminator. -/
def isSentenceStop (c : Char) : Bool :=
  c == '。' || c == '！' || c == '？' || c == '!' || c == '?'

def splitAfterStops : List Char → List Char → List (List Char)
  | [], cur => [cur.reverse]
  | c :: cs, cur =>
    if isSentenceStop c then (c :: cur).reverse :: splitAfterStops cs []
    else splitAfterStops cs (c :: cur)

/-- The greedy sentence-packing loop of source lines 188-197. -/
def packPieces (maxc : Nat) : List String → String → List String → List String
  | [], buf, acc => if buf.data.isEmpty then acc else acc ++ [buf]
  | p :: ps, buf, acc =>
    if buf.data.length + p.data.length ≤ maxc then packPieces maxc ps (buf ++ p) acc
    else if buf.data.isEmpty then packPieces maxc ps p acc
    else packPieces maxc ps p (acc ++ [buf])

/-- `re.split(r"\n\s*\n+", text)`: split at every whitespace run that starts at a
newline and contains at least two newlines; the separator extends to the last
newline of the run (the regex's `\s*` backtracks so that the final `\n+` can
match). -/
def splitBlankAux : Nat → List Char → List Char → List (List Char)
  | 0, _, cur => [cur.reverse]
  | _ + 1, [], cur => [cur.reverse]
  | fuel + 1, c :: cs, cur =>
    if c == '\n' then
      let run := (c :: cs).takeWhile isPySpace
      if 2 ≤ run.count '\n' then
        let sepLen := run.length - (run.reverse.takeWhile (· != '\n')).length
        cur.reverse :: splitBlankAux fuel ((c :: cs).drop sepLen) []
      else splitBlankAux fuel cs (c :: cur)
    else splitBlankAux fuel cs (c :: cur)

def splitBlank (text : String) : List String :=
  (splitBlankAux (text.data.length + 1) text.data []).map String.mk

/-- `split_passages` (source lines 176-198); the source default is
`max_chars = 360`. -/
def split_passages (text : String) (max_chars : Nat) : List String :=
  let paragraphs := ((splitBlank text).map pyStrip).filter (fun p => !p.data.isEmpty)
  let paragraphs := if paragraphs.isEmpty then [normalize_text text] else paragraphs
  paragraphs.foldl (fun acc para =>
    if para.data.length ≤ max_chars then acc ++ [para]
    else
      let pieces := ((splitAfterStops para.data []).map (fun cs => pyStrip (String.mk cs))).filter
        (fun s => !s.data.isEmpty)
      acc ++ packPieces max_chars pieces "" []) []

structure PassOut where
  score : ℚ
  reason : PassReason
  text : String
deriving Repr, DecidableEq

/-- Stable descending sort by score, Python's `sort(key=x[0], reverse=True)`. -/
def byScoreDesc {α : Type} (score : α → ℚ) (a b : α) : Bool := decide (score b ≤ score a)

/-- `top_passages` (source lines 281-308).  `readText` models
`read_text(chapter_path)`, which raises if the file is missing.  The display
rounding `round(s, 3)` of the reported score is not modelled (scores are exact
rationals here). -/
def top_passages (readText : String → Except String String) (chapter_path : String)
    (query_tokens query_entities : List String) (per_chapter passage_max_chars : Nat) :
    Except String (List PassOut) := do
  let text ← readText chapter_path
  let passages := split_passages text 360
  let scored := passages.map (fun p => (score_passage p query_tokens query_entities, p))
  let scored := sortLe (byScoreDesc (fun x => x.1.1)) scored
  let selected := (scored.filter (fun x => decide (0 < x.1.1))).take per_chapter
  let selected := if selected.isEmpty then scored.take (min per_chapter scored.length)
    else selected
  return selected.map (fun x =>
    { score := x.1.1, reason := x.1.2,
      text := if x.2.data.length ≤ passage_max_chars then x.2
        else pyRstrip (pyTakeChars x.2 passage_max_chars) ++ "..." })

/-! ### Two-stage retriever (`retrieve`, source lines 542-617) -/

structure RetrievedDoc where
  score : ℚ
  reason : FineReason
  chapter_file : String
  chapter_path : String
  summary : String
  entities : List String
  events : List String
  locations : List String
  foreshadow_refs : List String
  passages : List PassOut
deriving Repr, DecidableEq

structure RetrievalStats where
  docs_total : Nat
  candidate_pool : Nat
  rerank_topk : Nat
  estimated_context_chars : Nat
deriving Repr, DecidableEq

/-- The `result` dict flowing through `retrieve` / `main`; `Option` fields are
keys absent from some of the dict shapes the source builds. -/
structure QueryResult where
  query : String := ""
  query_entities : List String := []
  index_sig : Option String := none
  retrieved : List RetrievedDoc := []
  relation_snippets : List String := []
  retrieval_stats : Option RetrievalStats := none
  skipped : Bool := false
  cache_hit : Bool := false
  trigger_reason : List String := []
deriving Repr, DecidableEq

/-- `retrieve` (source lines 542-617). -/
def retrieve (H : String → String) (readText : String → Except String String)
    (index : StoredIndex) (tracker : Option String) (query : String)
    (top_k candidate_k per_chapter passage_max_chars : Nat) :
    Except String QueryResult := do
  let docs := index.docs
  let query_tokens := tokenize query
  let query_token_set := firstSeen query_tokens
  let names := load_character_names tracker
  let query_entities := names.filter (fun n => occursIn n query)
  let max_no := docs.foldl (fun m d => max m d.chapter_no) 0
  let coarse := docs.map (fun d =>
    (score_doc_coarse d query_token_set query_entities query, d))
  let coarse := sortLe (byScoreDesc (fun x => x.1.1)) coarse
  let candidate_pool := (coarse.filter (fun x => decide (0 < x.1.1))).take candidate_k
  let candidate_pool := if candidate_pool.isEmpty then
      coarse.take (min candidate_k coarse.length)
    else candidate_pool
  let fine := candidate_pool.map (fun x =>
    (score_doc_fine x.2 query_token_set query_entities query max_no, x.2))
  let fine := sortLe (byScoreDesc (fun x => x.1.1)) fine
  let picked := (fine.filter (fun x => decide (0 < x.1.1))).take top_k
  let picked := if picked.isEmpty then fine.take (min top_k fine.length) else picked
  let relation_snippets := extract_relation_snippets tracker query_entities 2 8
  let retrieved ← picked.mapM (fun x => do
    let passages ← top_passages readText x.2.chapter_path query_tokens query_entities
      per_chapter passage_max_chars
    return ({ score := x.1.1, reason := x.1.2, chapter_file := x.2.chapter_file,
              chapter_path := x.2.chapter_path, summary := x.2.summary,
              entities := x.2.entities, events := x.2.events, locations := x.2.locations,
              foreshadow_refs := x.2.foreshadow_refs, passages := passages } : RetrievedDoc))
  let total_chars := retrieved.foldl
    (fun t r => t + r.passages.foldl (fun u p => u + p.text.data.length) 0) 0
  return { query := query, query_entities := query_entities,
           index_sig := some (index_signature H index), retrieved := retrieved,
           relation_snippets := relation_snippets,
           retrieval_stats := some { docs_total := docs.length,
                                     candidate_pool := candidate_pool.length,
                                     rerank_topk := retrieved.length,
                                     estimated_context_chars := total_chars } }

/-! ### Query cache (`load_cache` lines 321-331, `save_cache` lines 334-339) -/

structure CacheEntry where
  saved_at : String
  result : QueryResult
deriving Repr, DecidableEq

structure CacheData where
  entries : List (String × CacheEntry)
deriving Repr, DecidableEq

/-- `load_cache` (source lines 321-331): missing, corrupt or non-dict content all
degrade to an empty cache. -/
def load_cache : Option (Except Unit CacheData) → CacheData
  | some (Except.ok c) => c
  | _ => { entries := [] }

/-- `save_cache` (source lines 334-339): when over capacity keep the
most-recently-saved `max_entries` entries (stable sort by `saved_at`
descending). -/
def save_cache (cache : CacheData) (max_entries : Nat) : CacheData :=
  if max_entries < cache.entries.length then
    { entries := (sortLe (fun a b => strLeB b.2.saved_at a.2.saved_at) cache.entries).take
        max_entries }
  else cache

/-! ### `main`'s query command (source lines 749-852) -/

structure QueryArgs where
  query : String
  top_k : Nat := 4
  auto_build : Bool := false
  full_rebuild : Bool := false
  passages_per_chapter : Nat := 2
  candidate_k : Nat := 12
  passage_max_chars : Nat := 220
  conditional : Bool := true
  force : Bool := false
  use_cache : Bool := true

structure QueryFs where
  build : BuildFs
  cacheFile : Option (Except Unit CacheData)

/-- Which side effects the query run performed; used to state the frame
properties of the conditional-trigger skip path. -/
structure Effects where
  ranBuild : Bool := false
  readIndexFile : Bool := false
  cacheLookup : Bool := false
  ranRetrieve : Bool := false
  savedCache : Bool := false
deriving Repr, DecidableEq

structure QueryOut where
  result : QueryResult
  cache_hit : Bool
  effects : Effects
deriving Repr, DecidableEq

/-- `read_text` on a chapter path, resolved against the modelled filesystem;
a missing file raises (as `Path.read_text` does). -/
def readTextOf (fs : BuildFs) : String → Except String String := fun p =>
  match fs.chapters.find? (fun ch => ch.name == p) with
  | some ch => Except.ok ch.text
  | none => Except.error ("file not found: " ++ p)

/-- The query branch of `main` (source lines 749-852).  Faithful control flow:
the index is loaded or (re)built *before* the trigger decision (lines 749-754);
`json.loads` on an existing corrupt index file raises (line 754); the
conditional-skip branch (lines 759-781) returns the empty result shape without
touching the cache; otherwise the cache is consulted and on a miss `retrieve`
runs and the result is cached.  File writes (`write_context_md`, `--emit-json`)
are outside the modelled core. -/
def mainQuery (H : String → String) (now : String) (args : QueryArgs) (fs : QueryFs) :
    Except String QueryOut := do
  let loaded ←
    if args.auto_build || fs.build.indexFile.isNone then
      Except.ok (((build_index H now fs.build 20 (!args.full_rebuild)).index,
        ({ ranBuild := true } : Effects)))
    else
      match fs.build.indexFile with
      | some (Except.ok idx) => Except.ok ((idx, ({ readIndexFile := true } : Effects)))
      | _ => Except.error "story_index.json: json.loads failed"
  let index := loaded.1
  let eff1 := loaded.2
  let names := load_character_names fs.build.tracker
  let trigger := analyze_query_trigger args.query names
  if args.conditional && !args.force && !trigger.should_trigger then
    return { result := { query := args.query, query_entities := trigger.entities,
                         skipped := true, cache_hit := false,
                         trigger_reason := trigger.reason, retrieved := [],
                         relation_snippets := [] },
             cache_hit := false, effects := eff1 }
  else
    let idx_sig := index_signature H index
    let cache_key := make_cache_key H args.query args.top_k args.passages_per_chapter
      args.passage_max_chars (idx_sig ++ "|cand=" ++ toString args.candidate_k)
    let hit := if args.use_cache then
        (load_cache fs.cacheFile).entries.find? (fun e => e.1 == cache_key)
      else none
    let eff2 : Effects := { ranBuild := eff1.ranBuild, readIndexFile := eff1.readIndexFile,
                            cacheLookup := args.use_cache, ranRetrieve := false,
                            savedCache := false }
    match hit with
    | some e =>
      return { result := { e.2.result with cache_hit := true }, cache_hit := true,
               effects := eff2 }
    | none => do
      let r ← retrieve H (readTextOf fs.build) index fs.build.tracker args.query
        args.top_k (max args.top_k args.candidate_k) args.passages_per_chapter
        args.passage_max_chars
      let r := { r with cache_hit := false, skipped := false, trigger_reason := trigger.reason }
      return { result := r, cache_hit := false,
               effects := { ranBuild := eff2.ranBuild, readIndexFile := eff2.readIndexFile,
                            cacheLookup := eff2.cacheLookup, ranRetrieve := true,
                            savedCache := args.use_cache } }

/-! ### Concrete instances used by counterexamples and witnesses -/

def exDocA : Doc := { chapter_file := "第1章.md", chapter_no := 1, mtime := 100 }

/-- Two index snapshots over the same documents that differ in entity signature. -/
def exIdxA : StoredIndex := { character_sig := "aaaaaaaaaaaaaaaa", docs := [exDocA] }

def exIdxB : StoredIndex := { character_sig := "bbbbbbbbbbbbbbbb", docs := [exDocA] }

/-- A chapter whose normalized text has 221 characters (> 220). -/
def chWide : Chapter :=
  { name := "第9章.md", mtime := 1, text := String.mk (List.replicate 221 'a') }

/-- A character-tracker document containing a markdown table with a separator line. -/
def exTracker : String := "|人物|状态|\n|---|---|\n|林岚|在场|"

/-- A one-chapter filesystem for build witnesses. -/
def fsW : BuildFs :=
  { chapters := [{ name := "第1章.md", mtime := 100, text := "决战" }],
    tracker := none, indexFile := none, metaFiles := [], sidecarExists := fun _ => false }

def argsSkip : QueryArgs := { query := "今天天气不错" }

/-- Query filesystem with a readable (empty) index snapshot on disk. -/
def qfsPresent : QueryFs :=
  { build := { chapters := [], tracker := none,
               indexFile := some (Except.ok { character_sig := "x" }),
               metaFiles := [], sidecarExists := fun _ => false },
    cacheFile := none }

/-- Query filesystem with no index snapshot on disk. -/
def qfsAbsent : QueryFs :=
  { build := { chapters := [], tracker := none, indexFile := none,
               metaFiles := [], sidecarExists := fun _ => false },
    cacheFile := none }

/-- Query filesystem whose index snapshot exists but is corrupt. -/
def qfsCorrupt : QueryFs :=
  { build := { chapters := [], tracker := none, indexFile := some (Except.error ()),
               metaFiles := [], sidecarExists := fun _ => false },
    cacheFile := none }

/-- A prior snapshot entry for the reuse-rule witness. -/
def dWit : Doc := { chapter_file := "c1.md", mtime := 5, meta_file := "" }

def chWit : Chapter := { name := "c1.md", mtime := 5, text := "" }

/-! ## Helper lemmas -/

theorem char_toNat_inj {c d : Char} (h : c.toNat = d.toNat) : c = d :=
  Char.ext (UInt32.ext h)

theorem perm_insertLe {α : Type} (le : α → α → Bool) (x : α) (l : List α) :
    List.Perm (insertLe le x l) (x :: l) := by
  induction l with
  | nil => exact List.Perm.refl _
  | cons y ys ih =>
    cases hyx : le y x with
    | false => simp [insertLe, hyx]
    | true =>
      simp only [insertLe, hyx, if_true]
      exact List.Perm.trans (ih.cons y) (List.Perm.swap x y ys)

theorem perm_foldl_insertLe {α : Type} (le : α → α → Bool) :
    ∀ (l acc : List α), List.Perm (l.foldl (fun a x => insertLe le x a) acc) (acc ++ l) := by
  intro l
  induction l with
  | nil => intro acc; simp
  | cons x xs ih =>
    intro acc
    have h1 : List.Perm ((x :: xs).foldl (fun a y => insertLe le y a) acc)
        (insertLe le x acc ++ xs) := ih (insertLe le x acc)
    have h2 : List.Perm (insertLe le x acc ++ xs) ((x :: acc) ++ xs) :=
      (perm_insertLe le x acc).append_right xs
    have h3 : List.Perm ((x :: acc) ++ xs) (acc ++ x :: xs) := by
      simpa using (@List.perm_middle _ x acc xs).symm
    exact (h1.trans h2).trans h3

theorem perm_sortLe {α : Type} (le : α → α → Bool) (l : List α) :
    List.Perm (sortLe le l) l := by
  simpa using perm_foldl_insertLe le l []

theorem mem_sortLe {α : Type} (le : α → α → Bool) (l : List α) (x : α) :
    x ∈ sortLe le l ↔ x ∈ l := (perm_sortLe le l).mem_iff

theorem length_sortLe {α : Type} (le : α → α → Bool) (l : List α) :
    (sortLe le l).length = l.length := (perm_sortLe le l).length_eq

theorem pairwise_insertLe {α : Type} (le : α → α → Bool)
    (htot : ∀ a b, le a b = false → le b a = true)
    (htrans : ∀ a b c, le a b = true → le b c = true → le a c = true)
    (x : α) (l : List α) (h : l.Pairwise (fun a b => le a b = true)) :
    (insertLe le x l).Pairwise (fun a b => le a b = true) := by
  induction l with
  | nil => simp [insertLe]
  | cons y ys ih =>
    rcases List.pairwise_cons.mp h with ⟨hy, hys⟩
    cases hyx : le y x with
    | true =>
      simp only [insertLe, hyx, if_true]
      refine List.pairwise_cons.mpr ⟨?_, ih hys⟩
      intro z hz
      have hz2 : z ∈ x :: ys := (perm_insertLe le x ys).mem_iff.mp hz
      rcases List.mem_cons.mp hz2 with hzx | hzys
      · rw [hzx]; exact hyx
      · exact hy z hzys
    | false =>
      have hxy : le x y = true := htot y x hyx
      simp only [insertLe, hyx, if_false]
      refine List.pairwise_cons.mpr ⟨?_, h⟩
      intro z hz
      rcases List.mem_cons.mp hz with hzy | hzys
      · rw [hzy]; exact hxy
      · exact htrans x y z hxy (hy z hzys)

theorem pairwise_sortLe {α : Type} (le : α → α → Bool)
    (htot : ∀ a b, le a b = false → le b a = true)
    (htrans : ∀ a b c, le a b = true → le b c = true → le a c = true)
    (l : List α) : (sortLe le l).Pairwise (fun a b => le a b = true) := by
  have haux : ∀ (m acc : List α), acc.Pairwise (fun a b => le a b = true) →
      (m.foldl (fun a x => insertLe le x a) acc).Pairwise (fun a b => le a b = true) := by
    intro m
    induction m with
    | nil => intro acc hacc; exact hacc
    | cons x xs ih => intro acc hacc; exact ih _ (pairwise_insertLe le htot htrans x acc hacc)
  exact haux l [] (by simp)

theorem lexLtL_asymm : ∀ a b : List Char, lexLtL a b = true → lexLtL b a = false := by
  intro a
  induction a with
  | nil =>
    intro b h
    cases b with
    | nil => simp [lexLtL] at h
    | cons y ys => simp [lexLtL]
  | cons x xs ih =>
    intro b h
    cases b with
    | nil => simp [lexLtL] at h
    | cons y ys =>
      simp only [lexLtL] at h ⊢
      split_ifs at h ⊢ with h1 h2 h3 h4 <;> try omega
      all_goals first
        | rfl
        | (exact ih ys h)

theorem lexLtL_le_trans : ∀ a b c : List Char,
    lexLtL b a = false → lexLtL c b = false → lexLtL c a = false := by
  intro a
  induction a with
  | nil =>
    intro b c h1 h2
    cases c with
    | nil => simp [lexLtL]
    | cons z zs => simp [lexLtL]
  | cons x xs ih =>
    intro b c h1 h2
    cases b with
    | nil => simp [lexLtL] at h1
    | cons y ys =>
      cases c with
      | nil => simp [lexLtL] at h2
      | cons z zs =>
        simp only [lexLtL] at h1 h2 ⊢
        split_ifs at h1 h2 ⊢ with h3 h4 h5 h6 h7 h8 <;> try omega
        all_goals first
          | rfl
          | (exact ih ys zs h1 h2)

theorem strLeB_total : ∀ a b : String, strLeB a b = false → strLeB b a = true := by
  intro a b h
  simp only [strLeB, Bool.not_eq_false'] at h
  simp only [strLeB, Bool.not_eq_true', lexLtL_asymm b.data a.data h]

theorem strLeB_trans : ∀ a b c : String,
    strLeB a b = true → strLeB b c = true → strLeB a c = true := by
  intro a b c h1 h2
  simp only [strLeB, Bool.not_eq_true'] at h1 h2 ⊢
  exact lexLtL_le_trans a.data b.data c.data h1 h2

theorem docLe_total : ∀ a b : Doc, docLe a b = false → docLe b a = true := by
  intro a b h
  simp only [docLe, Bool.or_eq_false_iff, Bool.and_eq_false_iff, decide_eq_false_iff_not,
    beq_eq_false_iff_ne, ne_eq] at h
  simp only [docLe, Bool.or_eq_true, Bool.and_eq_true, decide_eq_true_eq, beq_iff_eq]
  rcases h with ⟨hlt, hand⟩
  rcases hand with hne | hle
  · omega
  · rcases Nat.lt_or_ge b.chapter_no a.chapter_no with hl | hg
    · exact Or.inl hl
    · have heq : a.chapter_no = b.chapter_no := by omega
      exact Or.inr ⟨heq.symm, strLeB_total _ _ hle⟩

theorem docLe_trans : ∀ a b c : Doc, docLe a b = true → docLe b c = true → docLe a c = true := by
  intro a b c h1 h2
  simp only [docLe, Bool.or_eq_true, Bool.and_eq_true, decide_eq_true_eq, beq_iff_eq] at h1 h2 ⊢
  rcases h1 with h1 | ⟨h1e, h1s⟩ <;> rcases h2 with h2 | ⟨h2e, h2s⟩
  · exact Or.inl (by omega)
  · exact Or.inl (by omega)
  · exact Or.inl (by omega)
  · exact Or.inr ⟨by omega, strLeB_trans _ _ _ h1s h2s⟩

theorem filter_isEmpty_false_iff {α : Type} (p : α → Bool) (l : List α) :
    (l.filter p).isEmpty = false ↔ ∃ x ∈ l, p x = true := by
  rw [Bool.eq_false_iff, ne_eq, List.isEmpty_iff, List.filter_eq_nil_iff]
  push_neg
  constructor
  · rintro ⟨x, hx, hp⟩; exact ⟨x, hx, by simpa using hp⟩
  · rintro ⟨x, hx, hp⟩; exact ⟨x, hx, by simpa using hp⟩

theorem isPrefixOfL_iff : ∀ a b : List Char, isPrefixOfL a b = true ↔ ∃ t, b = a ++ t := by
  intro a
  induction a with
  | nil => intro b; simp [isPrefixOfL]
  | cons x xs ih =>
    intro b
    cases b with
    | nil =>
      simp only [isPrefixOfL, List.cons_append]
      constructor
      · intro h; simp at h
      · rintro ⟨t, ht⟩; simp at ht
    | cons y ys =>
      simp only [isPrefixOfL, Bool.and_eq_true, beq_iff_eq, List.cons_append]
      constructor
      · rintro ⟨rfl, h⟩
        obtain ⟨t, rfl⟩ := (ih ys).mp h
        exact ⟨t, rfl⟩
      · rintro ⟨t, ht⟩
        rw [List.cons.injEq] at ht
        exact ⟨ht.1.symm, (ih ys).mpr ⟨t, ht.2⟩⟩

theorem isInfixOfL_iff : ∀ (n h : List Char), isInfixOfL n h = true ↔ ∃ l r, h = l ++ n ++ r := by
  intro n h
  induction h with
  | nil =>
    simp only [isInfixOfL, List.isEmpty_iff]
    constructor
    · rintro rfl; exact ⟨[], [], rfl⟩
    · rintro ⟨l, r, hl⟩
      rcases List.append_eq_nil.mp (List.append_eq_nil.mp hl.symm).1.symm.symm with ⟨-, h2⟩
      · exact (List.append_eq_nil.mp (List.append_eq_nil.mp hl.symm).1.symm.symm).2
  | cons c t ih =>
    simp only [isInfixOfL, Bool.or_eq_true]
    constructor
    · rintro (hp | hi)
      · obtain ⟨r, hr⟩ := (isPrefixOfL_iff n (c :: t)).mp hp
        exact ⟨[], r, by simpa using hr⟩
      · obtain ⟨l, r, rfl⟩ := ih.mp hi
        exact ⟨c :: l, r, rfl⟩
    · rintro ⟨l, r, hl⟩
      cases l with
      | nil =>
        left
        exact (isPrefixOfL_iff n (c :: t)).mpr ⟨r, by simpa using hl⟩
      | cons a as =>
        right
        apply ih.mpr
        rw [List.cons_append, List.cons_append, List.cons.injEq] at hl
        exact ⟨as, r, hl.2⟩

theorem occursIn_iff (needle hay : String) :
    occursIn needle hay = true ↔ ∃ l r, hay.data = l ++ needle.data ++ r :=
  isInfixOfL_iff needle.data hay.data

theorem dictGet_dictSet_self {α : Type} (d : List (String × α)) (k : String) (v : α) :
    dictGet (dictSet d k v) k = some v := by
  induction d with
  | nil => simp [dictGet, dictSet]
  | cons e es ih =>
    by_cases he : (e.1 == k) = true
    · simp [dictGet, dictSet, he]
    · simp [dictGet, dictSet, he, ih]

theorem dictGet_dictSet_ne {α : Type} (d : List (String × α)) (k k' : String) (v : α)
    (hne : k' ≠ k) : dictGet (dictSet d k v) k' = dictGet d k' := by
  induction d with
  | nil =>
    have h2 : ((k : String) == k') = false := by
      rw [beq_eq_false_iff_ne]; intro hc; exact hne hc.symm
    simp [dictGet, dictSet, h2]
  | cons e es ih =>
    by_cases he : (e.1 == k) = true
    · have h1 : (e.1 == k') = false := by
        rw [beq_eq_false_iff_ne]
        intro hc
        exact hne (hc.symm.trans (beq_iff_eq.mp he))
      have h2 : ((k : String) == k') = false := by
        rw [beq_eq_false_iff_ne]; intro hc; exact hne hc.symm
      simp [dictGet, dictSet, he, h1, h2]
    · by_cases he' : (e.1 == k') = true
      · simp [dictGet, dictSet, he, he']
      · simp [dictGet, dictSet, he, he', ih]

theorem isEmpty_sortLe {α : Type} (le : α → α → Bool) (l : List α) :
    (sortLe le l).isEmpty = l.isEmpty := by
  cases l with
  | nil => rfl
  | cons x xs =>
    have hlen := length_sortLe le (x :: xs)
    cases h : sortLe le (x :: xs) with
    | nil => rw [h] at hlen; simp at hlen
    | cons y ys => rfl

/-! ## Claim theorems -/

/-- C7: the trigger classifier decides
`shouldTrigger = entitiesMatched ∨ plotKeywordMatched ∨ (queryLength ≥ 18 ∧ ¬lightSceneKeywordMatched)`,
where each match is substring occurrence in the whitespace-normalized query; in
particular, with no known entities, "今天天气不错" does not trigger and
"主角与反派决战" (containing the plot keyword "决战") does. -/
theorem trigger_decision_formula :
    (∀ (q : String) (names : List String),
      ((analyze_query_trigger q names).should_trigger = true ↔
        ((∃ n ∈ names, ∃ l r, (normalize_query q).data = l ++ n.data ++ r) ∨
         (∃ k ∈ TRIGGER_KEYWORDS, ∃ l r, (normalize_query q).data = l ++ k.data ++ r) ∨
         (18 ≤ (normalize_query q).data.length ∧
          ¬ ∃ k ∈ LIGHT_SCENE_KEYWORDS, ∃ l r, (normalize_query q).data = l ++ k.data ++ r)))) ∧
    (analyze_query_trigger "今天天气不错" []).should_trigger = false ∧
    (analyze_query_trigger "主角与反派决战" []).should_trigger = true := by
  refine ⟨?_, by decide, by decide⟩
  intro q names
  have hent : (!(names.filter (fun n => occursIn n (normalize_query q))).isEmpty) = true ↔
      ∃ n ∈ names, ∃ l r, (normalize_query q).data = l ++ n.data ++ r := by
    rw [Bool.not_eq_true', filter_isEmpty_false_iff]
    constructor
    · rintro ⟨n, hn, ho⟩; exact ⟨n, hn, (occursIn_iff n _).mp ho⟩
    · rintro ⟨n, hn, hlr⟩; exact ⟨n, hn, (occursIn_iff n _).mpr hlr⟩
  have hkw : (!(sortLe strLeB
        (TRIGGER_KEYWORDS.filter (fun k => occursIn k (normalize_query q)))).isEmpty) = true ↔
      ∃ k ∈ TRIGGER_KEYWORDS, ∃ l r, (normalize_query q).data = l ++ k.data ++ r := by
    rw [Bool.not_eq_true', isEmpty_sortLe, filter_isEmpty_false_iff]
    constructor
    · rintro ⟨k, hk, ho⟩; exact ⟨k, hk, (occursIn_iff k _).mp ho⟩
    · rintro ⟨k, hk, hlr⟩; exact ⟨k, hk, (occursIn_iff k _).mpr hlr⟩
  have hlight : (decide (18 ≤ (normalize_query q).data.length) &&
        (sortLe strLeB
          (LIGHT_SCENE_KEYWORDS.filter (fun k => occursIn k (normalize_query q)))).isEmpty) = true ↔
      (18 ≤ (normalize_query q).data.length ∧
        ¬ ∃ k ∈ LIGHT_SCENE_KEYWORDS, ∃ l r, (normalize_query q).data = l ++ k.data ++ r) := by
    rw [Bool.and_eq_true, decide_eq_true_eq, isEmpty_sortLe, List.isEmpty_iff,
      List.filter_eq_nil_iff]
    constructor
    · rintro ⟨hlen, hall⟩
      refine ⟨hlen, ?_⟩
      rintro ⟨k, hk, hlr⟩
      exact (hall k hk) (by simpa using (occursIn_iff k _).mpr hlr)
    · rintro ⟨hlen, hnone⟩
      refine ⟨hlen, ?_⟩
      intro k hk hocc
      exact hnone ⟨k, hk, (occursIn_iff k _).mp (by simpa using hocc)⟩
  show (!(names.filter (fun n => occursIn n (normalize_query q))).isEmpty ||
      !(sortLe strLeB
        (TRIGGER_KEYWORDS.filter (fun k => occursIn k (normalize_query q)))).isEmpty ||
      (decide (18 ≤ (normalize_query q).data.length) &&
        (sortLe strLeB
          (LIGHT_SCENE_KEYWORDS.filter (fun k => occursIn k (normalize_query q)))).isEmpty)) = true ↔ _
  rw [Bool.or_eq_true, Bool.or_eq_true, or_assoc]
  exact or_congr hent (or_congr hkw hlight)

/-- C1 (counterexample): the claim fails — two different snapshots (same documents,
different entity signature) yield the *same* cache key, because `index_signature`
hashes only the docs' `(chapter_file, mtime)` projection.  The hashed preimages are
shown equal, so for the real sha1 (or any hash `H`; `id` is used concretely here)
the keys coincide; they are not disjoint. -/
theorem cache_keys_not_disjoint :
    exIdxA ≠ exIdxB ∧
    index_signature_raw exIdxA.docs = index_signature_raw exIdxB.docs ∧
    make_cache_key id "新剧情查询" 4 2 220 (index_signature id exIdxA) =
      make_cache_key id "新剧情查询" 4 2 220 (index_signature id exIdxB) :=
  ⟨by decide, rfl, rfl⟩

/-- C1 (amended): a query-cache key is a function of the query parameters and the
documents' `(chapter_file, mtime)` projection alone; snapshots agreeing on that
projection — even with different entity signatures or other per-chapter metadata —
produce identical keys, so an index change invalidates prior cache entries only if
it changes that projection. -/
theorem cache_key_determined_by_doc_projection :
    ∀ (H : String → String) (q : String) (tk pc pm : Nat) (suffix : String)
      (a b : StoredIndex),
      a.docs.map (fun d => (d.chapter_file, d.mtime)) =
        b.docs.map (fun d => (d.chapter_file, d.mtime)) →
      make_cache_key H q tk pc pm (index_signature H a ++ suffix) =
        make_cache_key H q tk pc pm (index_signature H b ++ suffix) := by
  intro H q tk pc pm suffix a b hproj
  have hlen : a.docs.length = b.docs.length := by
    have h2 := congrArg List.length hproj
    simpa using h2
  have hraw : index_signature_raw a.docs = index_signature_raw b.docs := by
    unfold index_signature_raw
    have h3 : a.docs.map (fun d => d.chapter_file ++ ":" ++ toString d.mtime) =
        b.docs.map (fun d => d.chapter_file ++ ":" ++ toString d.mtime) := by
      have h2 := congrArg
        (List.map (fun p : String × Int => p.1 ++ ":" ++ toString p.2)) hproj
      simpa [List.map_map, Function.comp] using h2
    rw [h3]
  unfold make_cache_key make_cache_key_raw index_signature
  rw [hraw, hlen]

theorem cache_key_determined_by_doc_projection_witness :
    (exIdxA.docs.map (fun d => (d.chapter_file, d.mtime)) =
      exIdxB.docs.map (fun d => (d.chapter_file, d.mtime))) ∧
    make_cache_key id "新剧情查询" 4 2 220 (index_signature id exIdxA ++ "|cand=12") =
      make_cache_key id "新剧情查询" 4 2 220 (index_signature id exIdxB ++ "|cand=12") :=
  ⟨by decide,
   cache_key_determined_by_doc_projection id "新剧情查询" 4 2 220 "|cand=12" exIdxA exIdxB
     (by decide)⟩

/-- C9: the coarse score, fine score and passage score are all non-negative — sums
of non-negative overlap counts times non-negative weights; the fine score's recency
term lies in `[0, 1]` whenever `chapter_no ≤ max_no` (as holds in `retrieve`, where
`max_no` is the corpus maximum), and the conflict bonus is 0 or 0.2. -/
theorem scores_nonneg :
    ∀ (d : Doc) (qset qents : List String) (qtext passage : String) (max_no : Nat),
      0 ≤ (score_doc_coarse d qset qents qtext).1 ∧
      0 ≤ (score_passage passage qset qents).1 ∧
      0 ≤ (score_doc_fine d qset qents qtext max_no).1 ∧
      0 ≤ recencyOf d.chapter_no max_no ∧
      (d.chapter_no ≤ max_no → recencyOf d.chapter_no max_no ≤ 1) ∧
      (conflictBonusOf d.conflict_level = 0 ∨ conflictBonusOf d.conflict_level = 1 / 5) := by
  intro d qset qents qtext passage max_no
  have hrec0 : 0 ≤ recencyOf d.chapter_no max_no := by
    unfold recencyOf
    split_ifs with h
    · positivity
    · exact le_refl 0
  have hrec1 : d.chapter_no ≤ max_no → recencyOf d.chapter_no max_no ≤ 1 := by
    intro hle
    unfold recencyOf
    split_ifs with h
    · rw [div_le_one (by positivity)]
      exact_mod_cast hle
    · norm_num
  have hbonus : conflictBonusOf d.conflict_level = 0 ∨
      conflictBonusOf d.conflict_level = 1 / 5 := by
    unfold conflictBonusOf
    split_ifs with h
    · exact Or.inr rfl
    · exact Or.inl rfl
  have hb : 0 ≤ conflictBonusOf d.conflict_level := by
    rcases hbonus with h | h <;> rw [h] <;> norm_num
  refine ⟨?_, ?_, ?_, hrec0, hrec1, hbonus⟩
  · simp only [score_doc_coarse]
    positivity
  · simp only [score_passage]
    positivity
  · simp only [score_doc_fine]
    refine add_nonneg (add_nonneg (add_nonneg (add_nonneg (add_nonneg ?_ ?_) ?_) ?_) ?_) hb
    · positivity
    · positivity
    · positivity
    · positivity
    · exact mul_nonneg hrec0 (by norm_num)

theorem scores_nonneg_witness :
    ({ chapter_no := 1 } : Doc).chapter_no ≤ 2 ∧
    recencyOf ({ chapter_no := 1 } : Doc).chapter_no 2 ≤ 1 ∧
    0 ≤ (score_doc_coarse ({ chapter_no := 1 } : Doc) ["决战"] [] "决战").1 :=
  ⟨by decide,
   (scores_nonneg { chapter_no := 1 } ["决战"] [] "决战" "" 2).2.2.2.2.1 (by decide),
   (scores_nonneg { chapter_no := 1 } ["决战"] [] "决战" "" 2).1⟩

/-- C10: a chapter processed by the rebuild branch stores the first 260 characters
of the whitespace-normalized text as the snapshot summary, while its sidecar
(`build_chapter_meta`) stores the first 220 characters of the same text, so the two
persisted summaries differ whenever the normalized text exceeds 220 characters. -/
theorem summary_budgets_mismatch :
    (∀ (names : List String) (ktn : Nat) (ra : Bool) (ex : List (String × Doc))
        (se : String → Bool) (ch : Chapter),
      (buildStep names ktn ra ex se ch).reused = false →
      (buildStep names ktn ra ex se ch).doc = rebuildDoc names ktn ch) ∧
    (∀ (names : List String) (ktn : Nat) (ch : Chapter),
      (rebuildDoc names ktn ch).summary = pyTakeChars (normalize_text ch.text) 260 ∧
      (build_chapter_meta ch (parse_chapter_no ch.name) names).summary =
        pyTakeChars (normalize_text ch.text) 220 ∧
      (220 < (normalize_text ch.text).data.length →
        (rebuildDoc names ktn ch).summary ≠
          (build_chapter_meta ch (parse_chapter_no ch.name) names).summary)) := by
  constructor
  · intro names ktn ra ex se ch hre
    rcases h : dictGet ex ch.name with - | c
    · simp [buildStep, h]
    · by_cases hc : (ra && c.mtime == ch.mtime) = true
      · exfalso
        by_cases hc2 : (c.meta_file == "" || !se c.meta_file) = true
        · simp [buildStep, h, hc, hc2] at hre
        · simp [buildStep, h, hc, hc2] at hre
      · simp [buildStep, h, hc]
  · intro names ktn ch
    refine ⟨rfl, rfl, ?_⟩
    intro hlen heq
    have h1 := congrArg (fun s : String => s.data.length) heq
    simp only [rebuildDoc, build_chapter_meta, pyTakeChars, List.length_take] at h1
    omega

set_option maxRecDepth 40000 in
theorem summary_budgets_mismatch_witness :
    (220 < (normalize_text chWide.text).data.length) ∧
    (rebuildDoc [] 20 chWide).summary ≠
      (build_chapter_meta chWide (parse_chapter_no chWide.name) []).summary ∧
    (buildStep [] 20 true [] (fun _ => false) chWide).reused = false ∧
    (buildStep [] 20 true [] (fun _ => false) chWide).doc = rebuildDoc [] 20 chWide :=
  ⟨by decide,
   (summary_budgets_mismatch.2 [] 20 chWide).2.2 (by decide),
   by decide,
   summary_budgets_mismatch.1 [] 20 true [] (fun _ => false) chWide (by decide)⟩

/-- C6 (counterexample): the claim fails in the query path.  With an existing but
corrupt `story_index.json` and no `--auto-build`, `main` calls `json.loads` on it
unguarded (line 754) and the process fails — the corrupt snapshot is *not* treated
as if absent, since with the file absent the very same query succeeds (a build runs
instead). -/
theorem corrupt_index_fails_query_path :
    (mainQuery id "t" argsSkip qfsCorrupt).isOk = false ∧
    (mainQuery id "t" argsSkip qfsAbsent).isOk = true ∧
    (mainQuery id "t" argsSkip qfsAbsent).toOption.map (fun o => o.effects.ranBuild) =
      some true :=
  ⟨by decide, by decide, by decide⟩

/-- C6 (amended): inside `build_index` (the build command, and query with
`--auto-build`) a corrupt prior snapshot is treated exactly as no prior snapshot:
the build output is identical to the no-prior-file build, nothing is reused, every
chapter is rebuilt, and no error escapes; but a query without `--auto-build` on an
existing corrupt index file fails with a parse error instead (see the
counterexample). -/
theorem corrupt_prior_snapshot_full_rebuild :
    ∀ (H : String → String) (now : String) (ch : List Chapter) (tr : Option String)
      (mf : List String) (se : String → Bool) (ktn : Nat) (inc : Bool) (e : Unit),
      build_index H now ⟨ch, tr, some (Except.error e), mf, se⟩ ktn inc =
        build_index H now ⟨ch, tr, none, mf, se⟩ ktn inc ∧
      (build_index H now ⟨ch, tr, some (Except.error e), mf, se⟩ ktn inc).index.reused_docs
        = 0 ∧
      (build_index H now ⟨ch, tr, some (Except.error e), mf, se⟩ ktn inc).index.rebuilt_docs
        = ch.length := by
  intro H now ch tr mf se ktn inc e
  refine ⟨rfl, ?_, ?_⟩
  · show ((((sortLe chapLe ch).map
        (buildStep (load_character_names tr) ktn
          (if (if inc then loadExisting (some (Except.error e)) else ("", [])).1 != "" then
            (if inc then loadExisting (some (Except.error e)) else ("", [])).1 ==
              pyTakeChars (H (joinBar (load_character_names tr))) 16
           else true)
          (if inc then loadExisting (some (Except.error e)) else ("", [])).2
          se)).filter (fun s => s.reused)).length = 0)
    have hpr : (if inc then loadExisting (some (Except.error e)) else ("", [])) =
        (("" : String), ([] : List (String × Doc))) := by
      cases inc <;> rfl
    rw [hpr]
    rw [List.filter_eq_nil_iff.mpr ?_]
    · rfl
    · intro s hs
      rcases List.mem_map.mp hs with ⟨c, -, hc⟩
      rw [← hc]
      simp [buildStep, dictGet]
  · show ((((sortLe chapLe ch).map
        (buildStep (load_character_names tr) ktn
          (if (if inc then loadExisting (some (Except.error e)) else ("", [])).1 != "" then
            (if inc then loadExisting (some (Except.error e)) else ("", [])).1 ==
              pyTakeChars (H (joinBar (load_character_names tr))) 16
           else true)
          (if inc then loadExisting (some (Except.error e)) else ("", [])).2
          se)).filter (fun s => !s.reused)).length = ch.length)
    have hpr : (if inc then loadExisting (some (Except.error e)) else ("", [])) =
        (("" : String), ([] : List (String × Doc))) := by
      cases inc <;> rfl
    rw [hpr]
    rw [List.filter_eq_self.mpr ?_]
    · rw [List.length_map, length_sortLe]
    · intro s hs
      rcases List.mem_map.mp hs with ⟨c, -, hc⟩
      rw [← hc]
      simp [buildStep, dictGet]

/-- C2: in an incremental build, when the prior snapshot actually stores an entity
signature (`oldSig ≠ ""`; every snapshot written by this program does, its
signature being 16 hex characters), a prior entry is reused iff that stored
signature equals the freshly computed one and the stored mtime equals the file's
current mtime; when a reusable entry's sidecar is missing (or its path empty) the
sidecar is regenerated while the step still counts as reused; and `build_index`'s
`reused_docs` / `rebuilt_docs` are exactly the counts of reused / non-reused
steps. -/
theorem incremental_reuse_rule :
    (∀ (names : List String) (ktn : Nat) (oldSig newSig : String)
        (ex : List (String × Doc)) (se : String → Bool) (ch : Chapter) (cached : Doc),
      oldSig ≠ "" →
      dictGet ex ch.name = some cached →
      (((buildStep names ktn (if oldSig != "" then oldSig == newSig else true) ex se
          ch).reused = true) ↔ (oldSig = newSig ∧ cached.mtime = ch.mtime)) ∧
      ((oldSig = newSig ∧ cached.mtime = ch.mtime ∧
          (cached.meta_file = "" ∨ se cached.meta_file = false)) →
        (buildStep names ktn (if oldSig != "" then oldSig == newSig else true) ex se
          ch).wroteSidecar = true ∧
        (buildStep names ktn (if oldSig != "" then oldSig == newSig else true) ex se
          ch).reused = true)) ∧
    (∀ (H : String → String) (now : String) (fs : BuildFs) (ktn : Nat) (inc : Bool),
      (build_index H now fs ktn inc).steps =
        (sortLe chapLe fs.chapters).map
          (buildStep (load_character_names fs.tracker) ktn
            (if (if inc then loadExisting fs.indexFile else ("", [])).1 != "" then
              (if inc then loadExisting fs.indexFile else ("", [])).1 ==
                pyTakeChars (H (joinBar (load_character_names fs.tracker))) 16
             else true)
            (if inc then loadExisting fs.indexFile else ("", [])).2 fs.sidecarExists) ∧
      (build_index H now fs ktn inc).index.reused_docs =
        ((build_index H now fs ktn inc).steps.filter (fun s => s.reused)).length ∧
      (build_index H now fs ktn inc).index.rebuilt_docs =
        ((build_index H now fs ktn inc).steps.filter (fun s => !s.reused)).length) := by
  constructor
  · intro names ktn oldSig newSig ex se ch cached hsig hget
    have hra : (if oldSig != "" then oldSig == newSig else true) = (oldSig == newSig) := by
      simp [bne_iff_ne, hsig]
    rw [hra]
    by_cases heq : oldSig = newSig
    · by_cases hmt : cached.mtime = ch.mtime
      · constructor
        · by_cases hmf : (cached.meta_file == "" || !se cached.meta_file) = true
          · simp [buildStep, hget, heq, hmt, hmf]
          · simp [buildStep, hget, heq, hmt, hmf]
        · rintro ⟨-, -, hside⟩
          have hmf : (cached.meta_file == "" || !se cached.meta_file) = true := by
            rcases hside with h | h
            · simp [h]
            · simp [h]
          simp [buildStep, hget, heq, hmt, hmf]
      · constructor
        · have hbeq : (cached.mtime == ch.mtime) = false := by
            rw [beq_eq_false_iff_ne]; exact hmt
          simp [buildStep, hget, heq, hbeq, hmt]
        · rintro ⟨-, hmt2, -⟩
          exact absurd hmt2 hmt
    · constructor
      · have hbeq : (oldSig == newSig) = false := by
          rw [beq_eq_false_iff_ne]; exact heq
        simp [buildStep, hget, hbeq, heq]
      · rintro ⟨heq2, -, -⟩
        exact absurd heq2 heq
  · intro H now fs ktn inc
    exact ⟨rfl, rfl, rfl⟩

theorem incremental_reuse_rule_witness :
    ("s" : String) ≠ "" ∧
    dictGet [("c1.md", dWit)] "c1.md" = some dWit ∧
    ((buildStep [] 20 (if ("s" : String) != "" then ("s" : String) == "s" else true)
        [("c1.md", dWit)] (fun _ => false) chWit).reused = true ↔
      (("s" : String) = "s" ∧ dWit.mtime = chWit.mtime)) ∧
    (buildStep [] 20 (if ("s" : String) != "" then ("s" : String) == "s" else true)
        [("c1.md", dWit)] (fun _ => false) chWit).wroteSidecar = true := by
  refine ⟨by decide, by decide, ?_, ?_⟩
  · exact (incremental_reuse_rule.1 [] 20 "s" "s" [("c1.md", dWit)] (fun _ => false)
      chWit dWit (by decide) (by decide)).1
  · exact ((incremental_reuse_rule.1 [] 20 "s" "s" [("c1.md", dWit)] (fun _ => false)
      chWit dWit (by decide) (by decide)).2 ⟨rfl, by decide, Or.inl rfl⟩).1

/-- C3 (counterexample): the claim fails — `main` loads (or builds) the index
*before* the trigger decision (lines 749-754), so a query the classifier skips
still performs an index read when the index file exists, and a full index build
when it is missing. -/
theorem skip_still_reads_or_builds_index :
    (mainQuery id "t" argsSkip qfsPresent).toOption.map
      (fun o => (o.result.skipped, o.effects.readIndexFile, o.effects.cacheLookup,
                 o.effects.ranRetrieve)) = some (true, true, false, false) ∧
    (mainQuery id "t" argsSkip qfsAbsent).toOption.map
      (fun o => (o.result.skipped, o.effects.ranBuild)) = some (true, true) :=
  ⟨by decide, by decide⟩

/-- C3 (amended): whenever the trigger classifier decides to skip (conditional mode
on, no force flag) and the index-load stage does not raise, the query performs no
cache lookup, no retrieval and no cache write, and returns the well-formed empty
result shape (`skipped`, empty `retrieved`, empty `relation_snippets`, no cache
hit); the index read or build that the source performs *before* the trigger check
still happens and is recorded in the effects. -/
theorem skip_path_frame :
    ∀ (H : String → String) (now : String) (args : QueryArgs) (fs : QueryFs),
      args.conditional = true → args.force = false →
      (analyze_query_trigger args.query
        (load_character_names fs.build.tracker)).should_trigger = false →
      (args.auto_build = true ∨ fs.build.indexFile = none ∨
        ∃ idx, fs.build.indexFile = some (Except.ok idx)) →
      ∃ out, mainQuery H now args fs = Except.ok out ∧
        out.result.skipped = true ∧ out.result.retrieved = [] ∧
        out.result.relation_snippets = [] ∧ out.result.cache_hit = false ∧
        out.effects.cacheLookup = false ∧ out.effects.ranRetrieve = false ∧
        out.effects.savedCache = false := by
  intro H now args fs hcond hforce htrig hload
  rcases hload with hauto | hnone | ⟨idx, hidx⟩
  · have heq : mainQuery H now args fs = Except.ok
        { result := { query := args.query,
                      query_entities := (analyze_query_trigger args.query
                        (load_character_names fs.build.tracker)).entities,
                      skipped := true, cache_hit := false,
                      trigger_reason := (analyze_query_trigger args.query
                        (load_character_names fs.build.tracker)).reason,
                      retrieved := [], relation_snippets := [] },
          cache_hit := false, effects := { ranBuild := true } } := by
      unfold mainQuery
      simp only [hauto, hcond, hforce, htrig]
      rfl
    exact ⟨_, heq, rfl, rfl, rfl, rfl, rfl, rfl, rfl⟩
  · have heq : mainQuery H now args fs = Except.ok
        { result := { query := args.query,
                      query_entities := (analyze_query_trigger args.query
                        (load_character_names fs.build.tracker)).entities,
                      skipped := true, cache_hit := false,
                      trigger_reason := (analyze_query_trigger args.query
                        (load_character_names fs.build.tracker)).reason,
                      retrieved := [], relation_snippets := [] },
          cache_hit := false, effects := { ranBuild := true } } := by
      unfold mainQuery
      simp only [hnone, Option.isNone_none, Bool.or_true, hcond, hforce, htrig]
      rfl
    exact ⟨_, heq, rfl, rfl, rfl, rfl, rfl, rfl, rfl⟩
  · by_cases hauto2 : args.auto_build = true
    · have heq : mainQuery H now args fs = Except.ok
          { result := { query := args.query,
                        query_entities := (analyze_query_trigger args.query
                          (load_character_names fs.build.tracker)).entities,
                        skipped := true, cache_hit := false,
                        trigger_reason := (analyze_query_trigger args.query
                          (load_character_names fs.build.tracker)).reason,
                        retrieved := [], relation_snippets := [] },
            cache_hit := false, effects := { ranBuild := true } } := by
        unfold mainQuery
        simp only [hauto2, hcond, hforce, htrig]
        rfl
      exact ⟨_, heq, rfl, rfl, rfl, rfl, rfl, rfl, rfl⟩
    · have hauto3 : args.auto_build = false := Bool.not_eq_true _ |>.mp hauto2
      have heq : mainQuery H now args fs = Except.ok
          { result := { query := args.query,
                        query_entities := (analyze_query_trigger args.query
                          (load_character_names fs.build.tracker)).entities,
                        skipped := true, cache_hit := false,
                        trigger_reason := (analyze_query_trigger args.query
                          (load_character_names fs.build.tracker)).reason,
                        retrieved := [], relation_snippets := [] },
            cache_hit := false, effects := { readIndexFile := true } } := by
        unfold mainQuery
        simp only [hauto3, hidx, hcond, hforce, htrig]
        rfl
      exact ⟨_, heq, rfl, rfl, rfl, rfl, rfl, rfl, rfl⟩

theorem skip_path_frame_witness :
    (argsSkip.conditional = true) ∧ (argsSkip.force = false) ∧
    ((analyze_query_trigger argsSkip.query
        (load_character_names qfsPresent.build.tracker)).should_trigger = false) ∧
    ∃ out, mainQuery id "t" argsSkip qfsPresent = Except.ok out ∧
      out.result.skipped = true ∧ out.result.retrieved = [] ∧
      out.result.relation_snippets = [] ∧ out.result.cache_hit = false ∧
      out.effects.cacheLookup = false ∧ out.effects.ranRetrieve = false ∧
      out.effects.savedCache = false :=
  ⟨by decide, by decide, by decide,
   skip_path_frame id "t" argsSkip qfsPresent (by decide) (by decide) (by decide)
     (Or.inr (Or.inr ⟨{ character_sig := "x" }, rfl⟩))⟩

theorem dictGet_append_ne {α : Type} (m : List (String × α)) (n n' : String) (v : α)
    (h : n' ≠ n) : dictGet (m ++ [(n, v)]) n' = dictGet m n' := by
  induction m with
  | nil =>
    have hb : ((n : String) == n') = false := by
      rw [beq_eq_false_iff_ne]; intro hc; exact h hc.symm
    simp [dictGet, hb]
  | cons e es ih =>
    by_cases he : (e.1 == n') = true
    · simp [dictGet, he]
    · simp [dictGet, he, ih]

theorem dictGet_append_self {α : Type} (m : List (String × α)) (k : String) (v : α)
    (h : dictGet m k = none) : dictGet (m ++ [(k, v)]) k = some v := by
  induction m with
  | nil => simp [dictGet]
  | cons e es ih =>
    by_cases he : (e.1 == k) = true
    · simp [dictGet, he] at h
    · simp only [dictGet, he] at h
      simp [dictGet, he, ih h]

theorem dictGet_emapAppend_ne (m : List (String × List String)) (n n' f : String)
    (h : n' ≠ n) : dictGet (emapAppend m n f) n' = dictGet m n' := by
  unfold emapAppend
  rcases hg : dictGet m n with - | l
  · exact dictGet_append_ne m n n' [f] h
  · exact dictGet_dictSet_ne m n n' (l ++ [f]) h

theorem dictGet_emapAppend_self (m : List (String × List String)) (n f : String)
    (l : List String) (h : dictGet m n = some l) :
    dictGet (emapAppend m n f) n = some (l ++ [f]) := by
  unfold emapAppend
  rw [h]
  exact dictGet_dictSet_self m n (l ++ [f])

theorem entity_fold_inner_pres (n f : String) :
    ∀ (es : List String) (m : List (String × List String)), n ∉ es →
      dictGet (es.foldl (fun m2 e => emapAppend m2 e f) m) n = dictGet m n := by
  intro es
  induction es with
  | nil => intro m _; rfl
  | cons e rest ih =>
    intro m h
    rw [List.foldl_cons, ih _ (fun hc => h (List.mem_cons_of_mem _ hc)),
      dictGet_emapAppend_ne _ _ _ _
        (fun hc => h (by rw [hc]; exact List.mem_cons_self e rest))]

theorem entity_fold_inner (n f : String) :
    ∀ (es : List String) (m : List (String × List String)) (l : List String),
      es.Nodup → dictGet m n = some l →
      dictGet (es.foldl (fun m2 e => emapAppend m2 e f) m) n =
        some (l ++ (if n ∈ es then [f] else [])) := by
  intro es
  induction es with
  | nil => intro m l _ hg; simpa using hg
  | cons e rest ih =>
    intro m l hnd hg
    rcases List.nodup_cons.mp hnd with ⟨hne, hnd2⟩
    by_cases hen : e = n
    · subst hen
      rw [List.foldl_cons, entity_fold_inner_pres e f rest _ hne,
        dictGet_emapAppend_self m e f l hg]
      rw [if_pos (List.mem_cons_self e rest)]
    · have hgoal := ih (emapAppend m e f) l hnd2
        (by rw [dictGet_emapAppend_ne _ _ _ _ (fun hc => hen hc.symm)]; exact hg)
      rw [List.foldl_cons, hgoal]
      have hmem : (n ∈ e :: rest) ↔ (n ∈ rest) := by
        constructor
        · intro h2
          rcases List.mem_cons.mp h2 with h3 | h3
          · exact absurd h3.symm hen
          · exact h3
        · exact fun h2 => List.mem_cons_of_mem e h2
      rw [if_congr hmem rfl rfl]

theorem entity_fold_docs (n : String) :
    ∀ (docs : List Doc) (m : List (String × List String)) (l : List String),
      (∀ d ∈ docs, d.entities.Nodup) → dictGet m n = some l →
      dictGet (docs.foldl
          (fun m d => d.entities.foldl (fun m2 e => emapAppend m2 e d.chapter_file) m) m) n =
        some (l ++ (docs.filter (fun d => decide (n ∈ d.entities))).map
          (fun d => d.chapter_file)) := by
  intro docs
  induction docs with
  | nil => intro m l _ hg; simpa using hg
  | cons d rest ih =>
    intro m l hnd hg
    rw [List.foldl_cons]
    have hstep := entity_fold_inner n d.chapter_file d.entities m l
      (hnd d (List.mem_cons_self d rest)) hg
    rw [ih _ _ (fun d2 hd2 => hnd d2 (List.mem_cons_of_mem d hd2)) hstep]
    by_cases hd : n ∈ d.entities
    · simp [List.filter_cons, hd, List.append_assoc]
    · simp [List.filter_cons, hd]

theorem dictGet_emapInit (names : List String) (n : String) :
    dictGet (emapInit names) n = if n ∈ names then some [] else none := by
  suffices haux : ∀ (ns : List String) (m : List (String × List String)),
      dictGet (ns.foldl
        (fun m n2 => if (dictGet m n2).isSome then m else m ++ [(n2, [])]) m) n =
        if (dictGet m n).isSome then dictGet m n
        else (if n ∈ ns then some [] else none) by
    have h := haux names []
    simpa [emapInit, dictGet] using h
  intro ns
  induction ns with
  | nil =>
    intro m
    by_cases h : (dictGet m n).isSome
    · simp [h]
    · rcases hm : dictGet m n with - | w
      · simp [hm]
      · rw [hm] at h; simp at h
  | cons x rest ih =>
    intro m
    rw [List.foldl_cons]
    by_cases hx : (dictGet m x).isSome
    · rw [if_pos hx, ih m]
      by_cases hn : (dictGet m n).isSome
      · simp [hn]
      · have hnx : n ≠ x := by
          intro hc; rw [hc] at hn; exact hn hx
        simp [hn, List.mem_cons, hnx]
    · rw [if_neg hx, ih (m ++ [(x, [])])]
      by_cases hnx : n = x
      · subst hnx
        have h0 : dictGet m n = none := by
          rcases hm : dictGet m n with - | w
          · rfl
          · rw [hm] at hx; simp at hx
        have h1 : dictGet (m ++ [(n, [])]) n = some [] := dictGet_append_self m n [] h0
        simp [h1, h0, List.mem_cons]
      · have h2 : dictGet (m ++ [(x, [])]) n = dictGet m n :=
          dictGet_append_ne m x n [] hnx
        rw [h2]
        by_cases hn : (dictGet m n).isSome
        · simp [hn]
        · simp [hn, List.mem_cons, hnx]

/-- C8: after a build, the persisted entity→chapters map has every registry name as
a key — a name in no chapter maps to `[]` — and each name's list is exactly the
chapter files of the documents containing it, taken in the persisted (sorted by
chapter-ordinal, then filename) document order; `build_index` persists exactly this
map over its sorted docs. -/
theorem entity_map_spec :
    (∀ (names : List String) (docs : List Doc) (n : String),
      n ∈ names → (∀ d ∈ docs, d.entities.Nodup) →
      dictGet (entityMapOf names docs) n =
        some ((docs.filter (fun d => decide (n ∈ d.entities))).map
          (fun d => d.chapter_file))) ∧
    (∀ docs : List Doc,
      (sortLe docLe docs).Pairwise (fun a b => docLe a b = true)) ∧
    (∀ (H : String → String) (now : String) (fs : BuildFs) (ktn : Nat) (inc : Bool),
      (build_index H now fs ktn inc).entity_map =
        entityMapOf (load_character_names fs.tracker)
          (build_index H now fs ktn inc).index.docs ∧
      (build_index H now fs ktn inc).index.docs =
        sortLe docLe ((build_index H now fs ktn inc).steps.map (fun s => s.doc))) := by
  refine ⟨?_, ?_, ?_⟩
  · intro names docs n hn hnd
    have hinit : dictGet (emapInit names) n = some [] := by
      rw [dictGet_emapInit, if_pos hn]
    have h := entity_fold_docs n docs (emapInit names) [] hnd hinit
    unfold entityMapOf
    rw [h]
    simp
  · intro docs
    exact pairwise_sortLe docLe docLe_total docLe_trans docs
  · intro H now fs ktn inc
    exact ⟨rfl, rfl⟩

theorem entity_map_spec_witness :
    ("张三" ∈ ["张三", "林岚"]) ∧ ("林岚" ∈ ["张三", "林岚"]) ∧
    dictGet (entityMapOf ["张三", "林岚"]
        [{ chapter_file := "第1章.md", entities := ["林岚"] }]) "林岚" = some ["第1章.md"] ∧
    dictGet (entityMapOf ["张三", "林岚"]
        [{ chapter_file := "第1章.md", entities := ["林岚"] }]) "张三" = some [] := by
  refine ⟨by decide, by decide, ?_, ?_⟩
  · have h := entity_map_spec.1 ["张三", "林岚"]
      [{ chapter_file := "第1章.md", entities := ["林岚"] }] "林岚" (by decide) (by decide)
    rw [h]
    decide
  · have h := entity_map_spec.1 ["张三", "林岚"]
      [{ chapter_file := "第1章.md", entities := ["林岚"] }] "张三" (by decide) (by decide)
    rw [h]
    decide

theorem ra_self (s : String) : (if s != "" then s == s else true) = true := by
  cases h : s != "" <;> simp [h]

theorem mkExisting_key_aux : ∀ (docs : List Doc) (m : List (String × Doc)),
    (∀ k d, dictGet m k = some d → d.chapter_file = k) →
    ∀ k d,
      dictGet (docs.foldl
        (fun m x => if x.chapter_file == "" then m else dictSet m x.chapter_file x) m) k =
          some d →
      d.chapter_file = k := by
  intro docs
  induction docs with
  | nil => intro m hm; exact hm
  | cons x rest ih =>
    intro m hm
    rw [List.foldl_cons]
    apply ih
    intro k d hget
    by_cases hx : (x.chapter_file == "") = true
    · rw [if_pos hx] at hget; exact hm k d hget
    · rw [if_neg hx] at hget
      by_cases hk : k = x.chapter_file
      · subst hk
        rw [dictGet_dictSet_self] at hget
        have hxd := Option.some.inj hget
        rw [← hxd]
      · rw [dictGet_dictSet_ne _ _ _ _ hk] at hget
        exact hm k d hget

theorem dictGet_mkExisting_key (docs : List Doc) (k : String) (d : Doc)
    (h : dictGet (mkExisting docs) k = some d) : d.chapter_file = k :=
  mkExisting_key_aux docs [] (by intro k2 d2 h2; simp [dictGet] at h2) k d h

theorem loadExisting_key (opt : Option (Except Unit StoredIndex)) (k : String) (d : Doc)
    (h : dictGet (loadExisting opt).2 k = some d) : d.chapter_file = k := by
  match opt with
  | none => simp [loadExisting, dictGet] at h
  | some (Except.error e) => simp [loadExisting, dictGet] at h
  | some (Except.ok old) => exact dictGet_mkExisting_key old.docs k d h

theorem mkExisting_fold_pres : ∀ (docs : List Doc) (m : List (String × Doc)) (k : String),
    k ∉ docs.map (fun x => x.chapter_file) →
    dictGet (docs.foldl
      (fun m x => if x.chapter_file == "" then m else dictSet m x.chapter_file x) m) k =
      dictGet m k := by
  intro docs
  induction docs with
  | nil => intro m k _; rfl
  | cons x rest ih =>
    intro m k hk
    rw [List.foldl_cons, ih _ k (fun hc => hk (by rw [List.map_cons]; exact List.mem_cons_of_mem _ hc))]
    by_cases hx : (x.chapter_file == "") = true
    · rw [if_pos hx]
    · rw [if_neg hx, dictGet_dictSet_ne]
      intro hc
      exact hk (by rw [hc, List.map_cons]; exact List.mem_cons_self _ _)

theorem mkExisting_lookup : ∀ (docs : List Doc) (d : Doc),
    d ∈ docs → d.chapter_file ≠ "" → (docs.map (fun x => x.chapter_file)).Nodup →
    dictGet (mkExisting docs) d.chapter_file = some d := by
  have haux : ∀ (docs : List Doc) (m : List (String × Doc)) (d : Doc),
      d ∈ docs → d.chapter_file ≠ "" → (docs.map (fun x => x.chapter_file)).Nodup →
      dictGet (docs.foldl
        (fun m x => if x.chapter_file == "" then m else dictSet m x.chapter_file x) m)
        d.chapter_file = some d := by
    intro docs
    induction docs with
    | nil => intro m d hmem; exact absurd hmem (List.not_mem_nil d)
    | cons x rest ih =>
      intro m d hmem hne hnd
      rw [List.map_cons, List.nodup_cons] at hnd
      obtain ⟨hx, hnd2⟩ := hnd
      rw [List.foldl_cons]
      rcases List.mem_cons.mp hmem with heq | hmem2
      · subst heq
        have hbe : (d.chapter_file == "") = false := by
          rw [beq_eq_false_iff_ne]; exact hne
        rw [if_neg (by simp [hbe])]
        rw [mkExisting_fold_pres rest _ _ hx]
        exact dictGet_dictSet_self m d.chapter_file d
      · exact ih _ d hmem2 hne hnd2
  intro docs d hmem hne hnd
  exact haux docs [] d hmem hne hnd

theorem buildStep_doc_fields (names : List String) (ktn : Nat) (ra : Bool)
    (ex : List (String × Doc)) (se : String → Bool) (ch : Chapter)
    (hkey : ∀ k d, dictGet ex k = some d → d.chapter_file = k) :
    (buildStep names ktn ra ex se ch).doc.chapter_file = ch.name ∧
    (buildStep names ktn ra ex se ch).doc.mtime = ch.mtime := by
  rcases h : dictGet ex ch.name with - | c
  · constructor <;> simp [buildStep, h, rebuildDoc]
  · have hcf : c.chapter_file = ch.name := hkey _ _ h
    simp only [buildStep, h]
    by_cases hc : (ra && c.mtime == ch.mtime) = true
    · have hmt : c.mtime = ch.mtime := beq_iff_eq.mp ((Bool.and_eq_true _ _).mp hc).2
      rw [if_pos hc]
      by_cases hc2 : (c.meta_file == "" || !se c.meta_file) = true
      · rw [if_pos hc2]
        constructor
        · simpa [updateFromMeta] using hcf
        · simpa [updateFromMeta] using hmt
      · rw [if_neg hc2]
        exact ⟨hcf, hmt⟩
    · rw [if_neg hc]
      constructor <;> simp [rebuildDoc]

theorem buildStep_reused_of (names : List String) (ktn : Nat) (ex : List (String × Doc))
    (se : String → Bool) (ch : Chapter) (d : Doc)
    (hget : dictGet ex ch.name = some d) (hmt : d.mtime = ch.mtime) :
    (buildStep names ktn true ex se ch).reused = true := by
  have hbeq : (d.mtime == ch.mtime) = true := beq_iff_eq.mpr hmt
  unfold buildStep
  rw [hget]
  simp only [Bool.true_and, hbeq]
  rw [if_pos trivial]
  by_cases hmf : (d.meta_file == "" || !se d.meta_file) = true
  · rw [if_pos hmf]
  · rw [if_neg hmf]

theorem second_build_all_reused
    (names : List String) (ktn : Nat) (se1 se2 : String → Bool)
    (ra1 : Bool) (ex1 : List (String × Doc)) (chapters0 : List Chapter)
    (hkey : ∀ k d, dictGet ex1 k = some d → d.chapter_file = k)
    (hnd : (chapters0.map (fun c => c.name)).Nodup)
    (hne : ∀ c ∈ chapters0, c.name ≠ "") :
    ∀ c ∈ sortLe chapLe chapters0,
      (buildStep names ktn true
        (mkExisting (sortLe docLe
          (((sortLe chapLe chapters0).map (buildStep names ktn ra1 ex1 se1)).map
            (fun s => s.doc))))
        se2 c).reused = true := by
  intro c hc
  have hcmem : c ∈ chapters0 := (mem_sortLe _ _ _).mp hc
  have hdf := buildStep_doc_fields names ktn ra1 ex1 se1 c hkey
  have hdmem0 : (buildStep names ktn ra1 ex1 se1 c).doc ∈
      ((sortLe chapLe chapters0).map (buildStep names ktn ra1 ex1 se1)).map
        (fun s => s.doc) :=
    List.mem_map.mpr ⟨buildStep names ktn ra1 ex1 se1 c,
      List.mem_map.mpr ⟨c, hc, rfl⟩, rfl⟩
  have hdmem1 : (buildStep names ktn ra1 ex1 se1 c).doc ∈
      sortLe docLe
        (((sortLe chapLe chapters0).map (buildStep names ktn ra1 ex1 se1)).map
          (fun s => s.doc)) :=
    (mem_sortLe _ _ _).mpr hdmem0
  have hfiles0 : (((sortLe chapLe chapters0).map (buildStep names ktn ra1 ex1 se1)).map
        (fun s => s.doc)).map (fun x => x.chapter_file) =
      (sortLe chapLe chapters0).map (fun c => c.name) := by
    rw [List.map_map, List.map_map]
    apply List.map_congr_left
    intro a _
    exact (buildStep_doc_fields names ktn ra1 ex1 se1 a hkey).1
  have hnd0 : ((((sortLe chapLe chapters0).map (buildStep names ktn ra1 ex1 se1)).map
      (fun s => s.doc)).map (fun x => x.chapter_file)).Nodup := by
    rw [hfiles0]
    exact ((perm_sortLe chapLe chapters0).map (fun c => c.name)).nodup_iff.mpr hnd
  have hnd1 : ((sortLe docLe
      (((sortLe chapLe chapters0).map (buildStep names ktn ra1 ex1 se1)).map
        (fun s => s.doc))).map (fun x => x.chapter_file)).Nodup :=
    ((perm_sortLe docLe _).map (fun x => x.chapter_file)).nodup_iff.mpr hnd0
  have hlook : dictGet
      (mkExisting (sortLe docLe
        (((sortLe chapLe chapters0).map (buildStep names ktn ra1 ex1 se1)).map
          (fun s => s.doc))))
      (buildStep names ktn ra1 ex1 se1 c).doc.chapter_file =
      some (buildStep names ktn ra1 ex1 se1 c).doc :=
    mkExisting_lookup _ _ hdmem1 (hdf.1 ▸ hne c hcmem) hnd1
  rw [hdf.1] at hlook
  exact buildStep_reused_of names ktn _ se2 c _ hlook hdf.2

/-- C4: two consecutive incremental builds with the same chapter files (same names,
same mtimes, names unique and non-empty as directory listings are) and the same
entity registry yield `rebuilt_docs = 0` on the second run and the same
`chapter_count` on both runs — the build is idempotent. -/
theorem build_idempotent :
    ∀ (H : String → String) (now1 now2 : String) (fs : BuildFs) (ktn : Nat)
      (mf2 : List String) (se2 : String → Bool),
      (fs.chapters.map (fun c => c.name)).Nodup →
      (∀ c ∈ fs.chapters, c.name ≠ "") →
      (build_index H now2
          ⟨fs.chapters, fs.tracker,
            some (Except.ok (build_index H now1 fs ktn true).index), mf2, se2⟩ ktn
          true).index.rebuilt_docs = 0 ∧
      (build_index H now2
          ⟨fs.chapters, fs.tracker,
            some (Except.ok (build_index H now1 fs ktn true).index), mf2, se2⟩ ktn
          true).index.chapter_count =
        (build_index H now1 fs ktn true).index.chapter_count := by
  intro H now1 now2 fs ktn mf2 se2 hnd hne
  have hall := second_build_all_reused (load_character_names fs.tracker) ktn
    fs.sidecarExists se2
    (if (loadExisting fs.indexFile).1 != "" then
      (loadExisting fs.indexFile).1 ==
        pyTakeChars (H (joinBar (load_character_names fs.tracker))) 16
     else true)
    (loadExisting fs.indexFile).2 fs.chapters
    (fun k d h => loadExisting_key fs.indexFile k d h) hnd hne
  constructor
  · show (((sortLe chapLe fs.chapters).map
      (buildStep (load_character_names fs.tracker) ktn
        (if pyTakeChars (H (joinBar (load_character_names fs.tracker))) 16 != "" then
          pyTakeChars (H (joinBar (load_character_names fs.tracker))) 16 ==
            pyTakeChars (H (joinBar (load_character_names fs.tracker))) 16
         else true)
        (mkExisting (sortLe docLe
          (((sortLe chapLe fs.chapters).map
            (buildStep (load_character_names fs.tracker) ktn
              (if (loadExisting fs.indexFile).1 != "" then
                (loadExisting fs.indexFile).1 ==
                  pyTakeChars (H (joinBar (load_character_names fs.tracker))) 16
               else true)
              (loadExisting fs.indexFile).2 fs.sidecarExists)).map
            (fun s => s.doc))))
        se2)).filter (fun s => !s.reused)).length = 0
    rw [ra_self]
    rw [List.filter_eq_nil_iff.mpr ?_]
    · rfl
    · intro s hs
      rcases List.mem_map.mp hs with ⟨c, hc, hs2⟩
      rw [← hs2, hall c hc]
      simp
  · show (sortLe docLe (((sortLe chapLe fs.chapters).map
      (buildStep (load_character_names fs.tracker) ktn
        (if pyTakeChars (H (joinBar (load_character_names fs.tracker))) 16 != "" then
          pyTakeChars (H (joinBar (load_character_names fs.tracker))) 16 ==
            pyTakeChars (H (joinBar (load_character_names fs.tracker))) 16
         else true)
        (mkExisting (sortLe docLe
          (((sortLe chapLe fs.chapters).map
            (buildStep (load_character_names fs.tracker) ktn
              (if (loadExisting fs.indexFile).1 != "" then
                (loadExisting fs.indexFile).1 ==
                  pyTakeChars (H (joinBar (load_character_names fs.tracker))) 16
               else true)
              (loadExisting fs.indexFile).2 fs.sidecarExists)).map
            (fun s => s.doc))))
        se2)).map (fun s => s.doc))).length =
      (sortLe docLe (((sortLe chapLe fs.chapters).map
        (buildStep (load_character_names fs.tracker) ktn
          (if (loadExisting fs.indexFile).1 != "" then
            (loadExisting fs.indexFile).1 ==
              pyTakeChars (H (joinBar (load_character_names fs.tracker))) 16
           else true)
          (loadExisting fs.indexFile).2 fs.sidecarExists)).map
        (fun s => s.doc))).length
    rw [length_sortLe, length_sortLe, List.length_map, List.length_map,
      List.length_map, List.length_map]

theorem build_idempotent_witness :
    ((fsW.chapters.map (fun c => c.name)).Nodup) ∧
    (∀ c ∈ fsW.chapters, c.name ≠ "") ∧
    (build_index id "t2"
        ⟨fsW.chapters, fsW.tracker,
          some (Except.ok (build_index id "t1" fsW 20 true).index), [],
          fun _ => true⟩ 20 true).index.rebuilt_docs = 0 ∧
    (build_index id "t2"
        ⟨fsW.chapters, fsW.tracker,
          some (Except.ok (build_index id "t1" fsW 20 true).index), [],
          fun _ => true⟩ 20 true).index.chapter_count =
      (build_index id "t1" fsW 20 true).index.chapter_count := by
  refine ⟨by decide, by decide, ?_, ?_⟩
  · exact (build_idempotent id "t1" "t2" fsW 20 [] (fun _ => true) (by decide)
      (by decide)).1
  · exact (build_idempotent id "t1" "t2" fsW 20 [] (fun _ => true) (by decide)
      (by decide)).2

theorem snipTry_spec (lines : List String) (W : String → Prop) (st : SnipState)
    (start stop : Nat)
    (hseen : st.seen = st.hits.map normKeyOf)
    (hpw : st.hits.Pairwise (fun a b => normKeyOf a ≠ normKeyOf b))
    (hwin : ∀ b ∈ st.hits, W b)
    (hblock : W (windowBlock lines start stop)) :
    (snipTry lines st start stop).seen = (snipTry lines st start stop).hits.map normKeyOf ∧
    (snipTry lines st start stop).hits.Pairwise (fun a b => normKeyOf a ≠ normKeyOf b) ∧
    (∀ b ∈ (snipTry lines st start stop).hits, W b) ∧
    st.hits.length ≤ (snipTry lines st start stop).hits.length ∧
    (snipTry lines st start stop).hits.length ≤ st.hits.length + 1 := by
  unfold snipTry
  by_cases hc : (!(windowBlock lines start stop).data.isEmpty &&
      !(normKeyOf (windowBlock lines start stop)).data.isEmpty &&
      !st.seen.contains (normKeyOf (windowBlock lines start stop))) = true
  · rw [if_pos hc]
    have hnotseen : st.seen.contains (normKeyOf (windowBlock lines start stop)) = false := by
      have h4 := ((Bool.and_eq_true _ _).mp hc).2
      rcases hb : st.seen.contains (normKeyOf (windowBlock lines start stop)) with - | -
      · rfl
      · rw [hb] at h4; simp at h4
    refine ⟨?_, ?_, ?_, ?_, ?_⟩
    · show st.seen ++ [normKeyOf (windowBlock lines start stop)] = _
      rw [List.map_append, hseen]
      rfl
    · show (st.hits ++ [windowBlock lines start stop]).Pairwise _
      rw [List.pairwise_append]
      refine ⟨hpw, List.pairwise_singleton _ _, ?_⟩
      intro a ha b2 hb2
      rcases List.mem_singleton.mp hb2 with rfl
      intro hceq
      have hmem : normKeyOf (windowBlock lines start stop) ∈ st.seen := by
        rw [hseen, ← hceq]
        exact List.mem_map.mpr ⟨a, ha, rfl⟩
      have h5 := List.elem_eq_true_of_mem hmem
      rw [show st.seen.contains (normKeyOf (windowBlock lines start stop)) =
        st.seen.elem (normKeyOf (windowBlock lines start stop)) from rfl, h5] at hnotseen
      simp at hnotseen
    · intro b hb
      rcases List.mem_append.mp hb with hb1 | hb2
      · exact hwin b hb1
      · rcases List.mem_singleton.mp hb2 with rfl
        exact hblock
    · show st.hits.length ≤ (st.hits ++ [windowBlock lines start stop]).length
      simp
    · show (st.hits ++ [windowBlock lines start stop]).length ≤ st.hits.length + 1
      simp
  · rw [if_neg hc]
    exact ⟨hseen, hpw, hwin, Nat.le_refl _, Nat.le_succ _⟩

theorem snipGo_spec (lines terms : List String) :
    ∀ (todo : List (Nat × String)) (st : SnipState),
      st.hits.length < 8 →
      (∀ p ∈ todo, lines[p.1]? = some p.2) →
      st.seen = st.hits.map normKeyOf →
      (∀ b ∈ st.hits, ∃ i li, lines[i]? = some li ∧
        terms.any (fun t => occursIn t li) = true ∧
        b = windowBlock lines (i - 2) (min lines.length (i + 2 + 1))) →
      st.hits.Pairwise (fun a b => normKeyOf a ≠ normKeyOf b) →
      (snipGo lines terms 2 8 todo st).length ≤ 8 ∧
      (∀ b ∈ snipGo lines terms 2 8 todo st, ∃ i li, lines[i]? = some li ∧
        terms.any (fun t => occursIn t li) = true ∧
        b = windowBlock lines (i - 2) (min lines.length (i + 2 + 1))) ∧
      (snipGo lines terms 2 8 todo st).Pairwise
        (fun a b => normKeyOf a ≠ normKeyOf b) := by
  intro todo
  induction todo with
  | nil =>
    intro st hlen _ _ hwin hpw
    exact ⟨Nat.le_of_lt hlen, hwin, hpw⟩
  | cons p rest ih =>
    obtain ⟨i, line⟩ := p
    intro st hlen htodo hseen hwin hpw
    have htodo2 : ∀ q ∈ rest, lines[q.1]? = some q.2 :=
      fun q hq => htodo q (List.mem_cons_of_mem _ hq)
    rw [snipGo]
    by_cases h1 : (!terms.any (fun t => occursIn t line)) = true
    · rw [if_pos h1]
      exact ih st hlen htodo2 hseen hwin hpw
    · rw [if_neg h1]
      by_cases h2 : ((i : Int) ≤ st.lastEnd)
      · rw [if_pos h2]
        exact ih st hlen htodo2 hseen hwin hpw
      · rw [if_neg h2]
        by_cases h3 : (st.used.contains (i - 2, min lines.length (i + 2 + 1))) = true
        · rw [if_pos h3]
          exact ih st hlen htodo2 hseen hwin hpw
        · rw [if_neg h3]
          have hany : terms.any (fun t => occursIn t line) = true := by
            rcases hb : terms.any (fun t => occursIn t line) with - | -
            · rw [hb] at h1; simp at h1
            · rfl
          have hline : lines[i]? = some line := htodo (i, line) (List.mem_cons_self _ _)
          obtain ⟨hseen2, hpw2, hwin2, hlb, hub⟩ := snipTry_spec lines
            (fun b => ∃ j lj, lines[j]? = some lj ∧
              terms.any (fun t => occursIn t lj) = true ∧
              b = windowBlock lines (j - 2) (min lines.length (j + 2 + 1)))
            st (i - 2) (min lines.length (i + 2 + 1)) hseen hpw hwin
            ⟨i, line, hline, hany, rfl⟩
          by_cases hfull : 8 ≤ (snipTry lines st (i - 2)
              (min lines.length (i + 2 + 1))).hits.length
          · rw [if_pos hfull]
            exact ⟨by omega, hwin2, hpw2⟩
          · rw [if_neg hfull]
            exact ih _ (by omega) htodo2 hseen2 hwin2 hpw2

/-- C5 (counterexample): the claim's filtering clause fails — markdown table
separator lines are *not* filtered out of the returned snippet text: for a tracker
whose table contains `|---|---|`, the single returned snippet still contains that
line verbatim.  The separator is only dropped from the normalized deduplication
key (last conjunct). -/
theorem separator_kept_in_snippet_text :
    extract_relation_snippets (some exTracker) ["林岚"] 2 8 =
      ["|人物|状态|\n|---|---|\n|林岚|在场|"] ∧
    "|---|---|" ∈ pySplitlines "|人物|状态|\n|---|---|\n|林岚|在场|" ∧
    isTableSepLine "|---|---|" = true ∧
    normKeyOf "|人物|状态|\n|---|---|\n|林岚|在场|" = "|人物|状态| || |林岚|在场|" :=
  ⟨by decide, by decide, by decide, by decide⟩

/-- C5 (amended): with the defaults used by `retrieve` (window 2, cap 8), every
returned relation snippet is the stripped join of the lines within ±2 of a line
containing some search term (in `retrieve`, the matched query entities), the
snippets are deduplicated by their normalized content key (stripped lines with
blank and markdown-table-separator lines removed), and at most 8 are returned;
the returned snippet text itself retains any table-separator lines (see the
counterexample). -/
theorem relation_snippets_spec :
    ∀ (txt : String) (terms : List String),
      (extract_relation_snippets (some txt) terms 2 8).length ≤ 8 ∧
      (∀ b ∈ extract_relation_snippets (some txt) terms 2 8,
        ∃ i li, (pySplitlines txt)[i]? = some li ∧
          terms.any (fun t => occursIn t li) = true ∧
          b = windowBlock (pySplitlines txt) (i - 2)
            (min (pySplitlines txt).length (i + 2 + 1))) ∧
      (extract_relation_snippets (some txt) terms 2 8).Pairwise
        (fun a b => normKeyOf a ≠ normKeyOf b) := by
  intro txt terms
  have hrw : extract_relation_snippets (some txt) terms 2 8 =
      if terms.isEmpty = true then []
      else snipGo (pySplitlines txt) terms 2 8 (pySplitlines txt).enum
        { hits := [], used := [], seen := [], lastEnd := -1 } := rfl
  rw [hrw]
  by_cases hterms : terms.isEmpty = true
  · rw [if_pos hterms]
    refine ⟨by simp, by simp, List.Pairwise.nil⟩
  · rw [if_neg hterms]
    exact snipGo_spec (pySplitlines txt) terms (pySplitlines txt).enum
      { hits := [], used := [], seen := [], lastEnd := -1 }
      (by simp)
      (fun p hp => List.mem_enum_iff_getElem?.mp hp)
      rfl
      (by intro b hb; simp at hb)
      List.Pairwise.nil

end PlotRag
